import Mathlib

/-!
Verification of the 3D model derivative extractor (`processors/model3d.py`).

Shallow embedding conventions:
* Python numbers (int and float alike) are modelled as `ℚ`; `round(x, n)` is
  Python's banker's rounding (`pyRound`), `int(x)` truncation toward zero
  (`pyTrunc`).  Float infinities/NaN are not representable; the inputs used in
  the theorems below never produce them.
* Byte strings are `List ℕ` (each entry a byte value).
* Python `list.sort(key=..., reverse=True)` is a stable sort; it is modelled
  by a stable insertion sort (`sortDescByWeight`), which agrees with any
  stable sort for the same comparator.
* Fallible code (parsers that can raise) returns `Except String _`; the
  dispatcher `Model3DProcessor.process` catches every exception, so a raise
  corresponds to an error-status result.
-/

deriving instance DecidableEq for Except

/-- Python `round` to an integer: round-half-to-even (banker's rounding). -/
def pyRoundHalfEven (q : ℚ) : ℤ :=
  if q - ⌊q⌋ < 1/2 then ⌊q⌋
  else if 1/2 < q - ⌊q⌋ then ⌊q⌋ + 1
  else if ⌊q⌋ % 2 = 0 then ⌊q⌋ else ⌊q⌋ + 1

/-- Python `round(q, ndigits)`. -/
def pyRound (ndigits : ℕ) (q : ℚ) : ℚ :=
  (pyRoundHalfEven (q * 10 ^ ndigits) : ℚ) / 10 ^ ndigits

/-- Python `int(q)` on a number: truncation toward zero. -/
def pyTrunc (q : ℚ) : ℤ :=
  if q < 0 then -⌊-q⌋ else ⌊q⌋

/-- The module-level constant `_MAX_VERTICES` of `model3d.py`. -/
def MAX_VERTICES : ℕ := 100000

/-- The module-level constant `_MAX_BONES` of `model3d.py`. -/
def MAX_BONES : ℕ := 128

/-- The module-level constant `_MAX_KEYFRAMES` of `model3d.py`. -/
def MAX_KEYFRAMES : ℕ := 500

/-- The module-level constant `_FBX_TICKS_PER_SECOND` of `model3d.py`. -/
def FBX_TICKS_PER_SECOND : ℚ := 46186158000

/-- The truncation warning string
`f"Model exceeds {_MAX_VERTICES} vertices, truncated"` (the f-string is the
same, modulo whitespace of the wrapped literal, at all three emission sites). -/
def truncWarning : String := "Model exceeds 100000 vertices, truncated"

/-- Python slice index resolution for `l[a:b]`: a negative index counts from
the end; results are clamped to `[0, len]`. -/
def pySliceIdx (n : ℕ) (i : ℤ) : ℕ :=
  if i < 0 then (n + i).toNat else Min.min i.toNat n

/-- Python list slice `l[a:b]` (step 1). -/
def pySlice {α : Type} (l : List α) (a b : ℤ) : List α :=
  (l.take (pySliceIdx l.length b)).drop (pySliceIdx l.length a)

/-- Python `range(0, stop, step)` for `step ≥ 1` (empty for `stop = 0`). -/
def pyRangeStep (stop step : ℕ) : List ℕ :=
  (List.range ((stop + step - 1) / step)).map (· * step)

-- ------------------------------------------------------------------
-- Bounds Calculator (`_compute_bounds`, model3d.py lines 1360-1380)
-- ------------------------------------------------------------------

/-- The `{min, max, center}` record produced by `_compute_bounds`. -/
structure Bounds where
  min : List ℚ
  max : List ℚ
  center : List ℚ
deriving DecidableEq, Repr

/-- One running `(min_v[j], max_v[j])` component; `none` models the initial
`float("inf")`/`float("-inf")` before any update. -/
structure MinMax where
  lo : Option ℚ
  hi : Option ℚ
deriving DecidableEq, Repr

def mmUpdate (m : MinMax) (v : ℚ) : MinMax :=
  ⟨some (match m.lo with | none => v | some a => Min.min a v),
   some (match m.hi with | none => v | some a => Max.max a v)⟩

/-- The nested loop of `_compute_bounds`: `i` walks the flat list in steps of
3, `j` the component; an index past the end is skipped (`if i + j < len`). -/
def boundsLoop : List ℚ → MinMax × MinMax × MinMax → MinMax × MinMax × MinMax
  | [], s => s
  | [a], (m0, m1, m2) => (mmUpdate m0 a, m1, m2)
  | [a, b], (m0, m1, m2) => (mmUpdate m0 a, mmUpdate m1 b, m2)
  | a :: b :: c :: rest, (m0, m1, m2) =>
      boundsLoop rest (mmUpdate m0 a, mmUpdate m1 b, mmUpdate m2 c)

/-- `_compute_bounds(positions)`.  For empty input all-zero vectors are
returned (explicit edge case in the source).  A component that is never
updated (only possible when the input length is 1 or 2, undefined behaviour
per the format) is defaulted to 0 here where Python would keep ±inf. -/
def compute_bounds (positions : List ℚ) : Bounds :=
  if positions = [] then ⟨[0, 0, 0], [0, 0, 0], [0, 0, 0]⟩
  else
    let r := boundsLoop positions (⟨none, none⟩, ⟨none, none⟩, ⟨none, none⟩)
    let mins := [r.1.lo.getD 0, r.2.1.lo.getD 0, r.2.2.lo.getD 0]
    let maxs := [r.1.hi.getD 0, r.2.1.hi.getD 0, r.2.2.hi.getD 0]
    let ctrs := (mins.zip maxs).map (fun p => (p.1 + p.2) / 2)
    ⟨mins.map (pyRound 6), maxs.map (pyRound 6), ctrs.map (pyRound 6)⟩

-- ------------------------------------------------------------------
-- FBX polygon decoding and fan triangulation
-- ------------------------------------------------------------------

/-- The polygon-loop builder of `_parse_fbx` (model3d.py lines 826-835):
a negative stored index marks the final vertex of a polygon as its bitwise
complement (`~idx = -idx - 1`); a trailing unterminated run is dropped. -/
def buildPolygonsGo : List ℤ → List ℤ → List (List ℤ)
  | _, [] => []
  | cur, idx :: rest =>
      if idx < 0 then (cur ++ [-idx - 1]) :: buildPolygonsGo [] rest
      else buildPolygonsGo (cur ++ [idx]) rest

def buildPolygons (raw : List ℤ) : List (List ℤ) :=
  buildPolygonsGo [] raw

/-- Fan triangulation from the first vertex: the loop
`for i in range(1, len(fv) - 1): out.extend([fv[0], fv[i], fv[i+1]])`,
shared by `_parse_obj` (lines 679-683) and `_parse_fbx` (lines 898-901). -/
def fanTriangulate {α : Type} (d : α) (fv : List α) : List α :=
  (List.range' 1 (fv.length - 2)).foldl
    (fun acc i => acc ++ [fv.getD 0 d, fv.getD i d, fv.getD (i + 1) d]) []

-- ------------------------------------------------------------------
-- Keyframe decimation stride
-- ------------------------------------------------------------------

/-- The keyframe decimation index set used by the glTF animation extractor
(model3d.py lines 1324-1327) — and, with the same arithmetic, by the FBX
animation extractor (lines 441-444):
`step = max(1, n // _MAX_KEYFRAMES); si = list(range(0, n, step));
if si and si[-1] != n - 1: si.append(n - 1)`. -/
def strideIdx (n : ℕ) : List ℕ :=
  let step := Max.max 1 (n / MAX_KEYFRAMES)
  let si := pyRangeStep n step
  if si ≠ [] ∧ si.getLast? ≠ some (n - 1) then si ++ [n - 1] else si

-- ------------------------------------------------------------------
-- FBX bone-weight assembly (`_parse_fbx`, model3d.py lines 947-971)
-- ------------------------------------------------------------------

/-- Stable insertion of one `(bone, weight)` influence into a list already
sorted by descending weight (equal weights keep their original order). -/
def insertDescByWeight (a : ℕ × ℚ) : List (ℕ × ℚ) → List (ℕ × ℚ)
  | [] => [a]
  | b :: bs => if b.2 > a.2 then b :: insertDescByWeight a bs else a :: b :: bs

/-- `inf.sort(key=lambda x: x[1], reverse=True)`: Python's stable sort by
descending weight, modelled as stable insertion sort. -/
def sortDescByWeight (l : List (ℕ × ℚ)) : List (ℕ × ℚ) :=
  l.foldr insertDescByWeight []

/-- The per-vertex body of the weight-flattening loop (lines 960-971): keep
the top 4 influences by weight, renormalize to sum 1 (`w / total` if
`total > 0` else `0.0`), pad to exactly 4 slots with the `[0, 0, 0, 0]` /
`[0.0, 0.0, 0.0, 0.0]` initial values, round the weights to 6 digits. -/
def weightBlock (inf : List (ℕ × ℚ)) : List ℤ × List ℚ :=
  let top4 := (sortDescByWeight inf).take 4
  let total := (top4.map (fun p : ℕ × ℚ => p.2)).sum
  let bi : List ℤ :=
    top4.map (fun p : ℕ × ℚ => (p.1 : ℤ)) ++ List.replicate (4 - top4.length) 0
  let bw : List ℚ :=
    (top4.map (fun p : ℕ × ℚ => if total > 0 then p.2 / total else 0)
      ++ List.replicate (4 - top4.length) 0).map (pyRound 6)
  (bi, bw)

/-- The whole flattening loop over `influences`, producing the flat
`bone_indices` / `bone_weights` arrays (4 entries per vertex). -/
def flattenInfluences (influences : List (List (ℕ × ℚ))) : List ℤ × List ℚ :=
  influences.foldl
    (fun acc inf =>
      let blk := weightBlock inf
      (acc.1 ++ blk.1, acc.2 ++ blk.2))
    ([], [])

-- ------------------------------------------------------------------
-- Python value model and the FBX node tree
-- ------------------------------------------------------------------

/-- A Python value as it occurs in decoded FBX node properties: scalars,
strings, byte blobs and (array-property) lists. -/
inductive PyVal : Type where
  | int (n : ℤ)
  | float (q : ℚ)
  | str (s : String)
  | bytes (b : List ℕ)
  | bool (b : Bool)
  | list (xs : List PyVal)

mutual

def PyVal.beq : PyVal → PyVal → Bool
  | .int a, .int b => a == b
  | .float a, .float b => a == b
  | .str a, .str b => a == b
  | .bytes a, .bytes b => a == b
  | .bool a, .bool b => a == b
  | .list a, .list b => PyVal.beqList a b
  | _, _ => false

def PyVal.beqList : List PyVal → List PyVal → Bool
  | [], [] => true
  | a :: as', b :: bs' => PyVal.beq a b && PyVal.beqList as' bs'
  | _, _ => false

end

/-- `v == "s"` on a Python value (only the identical string compares equal). -/
def PyVal.isStrEq : PyVal → String → Bool
  | .str t, s => t == s
  | _, _ => false

/-- `float(v)` on a Python number (a non-number raises in Python, which would
surface as a parse error; the model totalizes it to 0 — never reached by the
inputs considered in the theorems). -/
def pyFloatOf : PyVal → ℚ
  | .int n => (n : ℚ)
  | .float q => q
  | .bool b => if b then 1 else 0
  | _ => 0

/-- A Python value used as an integer index (again totalized to 0 where
Python would raise). -/
def pyIntOf : PyVal → ℤ
  | .int n => n
  | .float q => pyTrunc q
  | .bool b => if b then 1 else 0
  | _ => 0

/-- A decoded FBX node `{"name": …, "props": […], "children": {…}}`.
The children dict maps a name to a node or, when siblings collide, a list of
nodes; an entry is `(name, isList, nodes)` with a single node stored as
`(name, false, [n])`. -/
inductive FbxNode : Type where
  | mk (name : String) (props : List PyVal)
       (children : List (String × Bool × List FbxNode))

abbrev FbxDict := List (String × Bool × List FbxNode)

def FbxNode.name : FbxNode → String
  | .mk n _ _ => n

def FbxNode.props : FbxNode → List PyVal
  | .mk _ p _ => p

def FbxNode.children : FbxNode → FbxDict
  | .mk _ _ c => c

def fbxGet (cs : FbxDict) (k : String) : Option (Bool × List FbxNode) :=
  (cs.find? (fun e => e.1 == k)).map (fun e => e.2)

/-- `d.get(k)` where the caller then treats the value as a single node.
When the entry was coalesced into a list Python raises (a list has no
`.get`), aborting the parse; the model returns `none` there. -/
def fbxGetOne (cs : FbxDict) (k : String) : Option FbxNode :=
  match fbxGet cs k with
  | some (false, [n]) => some n
  | _ => none

/-- `_ensure_list(d.get(k))` (model3d.py lines 151-154). -/
def fbxEnsureList (cs : FbxDict) (k : String) : List FbxNode :=
  match fbxGet cs k with
  | some (_, ns) => ns
  | none => []

def agetPy {α : Type} (m : List (PyVal × α)) (k : PyVal) : Option α :=
  (m.find? (fun e => e.1.beq k)).map (fun e => e.2)

def asetPy {α : Type} (m : List (PyVal × α)) (k : PyVal) (v : α) : List (PyVal × α) :=
  (k, v) :: m

/-- `defaultdict(list)` keyed by original FBX vertex index:
`d[k].append(v)`. -/
def o2eAdd (m : List (ℤ × List ℕ)) (k : ℤ) (v : ℕ) : List (ℤ × List ℕ) :=
  if (m.find? (fun e => e.1 == k)).isSome then
    m.map (fun e => if e.1 == k then (e.1, e.2 ++ [v]) else e)
  else m ++ [(k, [v])]

def o2eGet (m : List (ℤ × List ℕ)) (k : ℤ) : List ℕ :=
  ((m.find? (fun e => e.1 == k)).map (fun e => e.2)).getD []

-- ------------------------------------------------------------------
-- FBX geometry extraction (`_parse_fbx`, model3d.py lines 706-928)
-- ------------------------------------------------------------------

/-- The per-layer attribute data (`LayerElementNormal` / `LayerElementUV`):
flat value list, `MappingInformationType`, `ReferenceInformationType`, and
the optional `NormalsIndex`/`UVIndex` array. -/
structure FbxLayer where
  flat : List ℚ
  mapping : PyVal
  ref : PyVal
  index : List ℤ

/-- Read one layer element from a geometry node's children: `dataKey` is
`"Normals"`/`"UV"`, `idxKey` is `"NormalsIndex"`/`"UVIndex"` (lines
779-824). -/
def readFbxLayer (gc : FbxDict) (layerKey dataKey idxKey : String) : FbxLayer :=
  let base : FbxLayer :=
    ⟨[], PyVal.str "ByPolygonVertex", PyVal.str "Direct", []⟩
  match fbxGetOne gc layerKey with
  | none => base
  | some le =>
    let lec := le.children
    let flat :=
      match fbxGetOne lec dataKey with
      | some nd =>
        match nd.props.head? with
        | some (PyVal.list vs) => vs.map pyFloatOf
        | some _ => []
        | none => base.flat
      | none => base.flat
    let mapping :=
      match fbxGetOne lec "MappingInformationType" with
      | some m => match m.props.head? with
                  | some v => v
                  | none => base.mapping
      | none => base.mapping
    let ref :=
      match fbxGetOne lec "ReferenceInformationType" with
      | some r => match r.props.head? with
                  | some v => v
                  | none => base.ref
      | none => base.ref
    let index :=
      match fbxGetOne lec idxKey with
      | some ni =>
        match ni.props.head? with
        | some (PyVal.list vs) => vs.map pyIntOf
        | _ => base.index
      | none => base.index
    ⟨flat, mapping, ref, index⟩

/-- Resolve the attribute value index for one polygon-vertex, honouring the
four mapping/reference combinations (lines 856-867 for normals, 874-885 for
UVs).  `pvc` is `poly_vertex_counter`, `v` the original vertex index. -/
def layerValIdx (l : FbxLayer) (pvc : ℕ) (v : ℤ) : ℤ :=
  if l.mapping.isStrEq "ByPolygonVertex" then
    if l.ref.isStrEq "IndexToDirect" ∧ (pvc : ℤ) < l.index.length then
      l.index.getD pvc 0
    else (pvc : ℤ)
  else if l.mapping.isStrEq "ByVertex" ∨ l.mapping.isStrEq "ByVertice" then
    if l.ref.isStrEq "IndexToDirect" ∧ v < (l.index.length : ℤ) then
      l.index.getD v.toNat 0
    else v
  else (pvc : ℤ)

/-- Per-mesh mutable state of the polygon expansion loop (lines 838-845). -/
structure MeshAcc where
  pvc : ℕ
  mpos : List ℚ
  mnorm : List ℚ
  muv : List ℚ
  mindices : List ℕ
  mfc : ℕ
  ovi : ℕ
  o2e : List (ℤ × List ℕ)

/-- One polygon-vertex of the expansion loop (lines 849-896): emit the
position triple (zero-padded when out of range), the mapped normal/UV values,
record `orig_to_expanded`, and hand back the output vertex index. -/
def expandVert (voff : ℕ) (positions : List ℚ) (nl ul : FbxLayer)
    (m : MeshAcc) (v : ℤ) : MeshAcc × ℕ :=
  let mpos :=
    if v * 3 + 2 < (positions.length : ℤ) then
      m.mpos ++ pySlice positions (v * 3) (v * 3 + 3)
    else m.mpos ++ [0, 0, 0]
  let mnorm :=
    if nl.flat ≠ [] then
      let ni := layerValIdx nl m.pvc v
      if ni * 3 + 2 < (nl.flat.length : ℤ) then
        m.mnorm ++ pySlice nl.flat (ni * 3) (ni * 3 + 3)
      else m.mnorm ++ [0, 0, 0]
    else m.mnorm
  let muv :=
    if ul.flat ≠ [] then
      let ui := layerValIdx ul m.pvc v
      if ui * 2 + 1 < (ul.flat.length : ℤ) then
        m.muv ++ pySlice ul.flat (ui * 2) (ui * 2 + 2)
      else m.muv ++ [0, 0]
    else m.muv
  let o2e := o2eAdd m.o2e v (m.ovi + voff)
  (⟨m.pvc + 1, mpos, mnorm, muv, m.mindices, m.mfc, m.ovi + 1, o2e⟩, m.ovi)

/-- One polygon: expand its vertices, then fan-triangulate `poly_out`
(lines 847-901). -/
def expandPoly (voff : ℕ) (positions : List ℚ) (nl ul : FbxLayer)
    (m : MeshAcc) (poly : List ℤ) : MeshAcc :=
  let step := poly.foldl
    (fun (acc : MeshAcc × List ℕ) v =>
      let r := expandVert voff positions nl ul acc.1 v
      (r.1, acc.2 ++ [r.2]))
    (m, [])
  let m' := step.1
  let poly_out := step.2
  { m' with
    mindices := m'.mindices ++ fanTriangulate 0 poly_out,
    mfc := m'.mfc + (poly_out.length - 2) }

def expandPolys (voff : ℕ) (positions : List ℚ) (nl ul : FbxLayer)
    (polys : List (List ℤ)) : MeshAcc :=
  polys.foldl (expandPoly voff positions nl ul) ⟨0, [], [], [], [], 0, 0, []⟩

/-- Accumulated state of the geometry loop of `_parse_fbx`
(lines 722-730). -/
structure FbxAcc where
  warnings : List String
  all_positions : List ℚ
  all_normals : List ℚ
  all_uvs : List ℚ
  all_indices : List ℕ
  face_count : ℕ
  vertex_offset : ℕ
  truncated : Bool
  geomMaps : List (PyVal × List (ℤ × List ℕ))

/-- One `Geometry` node of the loop (lines 737-911).  (The source computes
`n_verts` just before its `if truncated: continue`; the two are independent,
so the check is placed first here.) -/
def processGeom (acc : FbxAcc) (geom : FbxNode) : FbxAcc :=
  if 3 ≤ geom.props.length ∧ ¬ (geom.props.getD 2 (PyVal.int 0)).isStrEq "Mesh" then
    acc
  else
    match fbxGetOne geom.children "Vertices" with
    | none => acc
    | some vert_node =>
      match vert_node.props.getD 0 (PyVal.list []) with
      | PyVal.list rawVerts0 =>
        if acc.truncated then acc
        else
          let n_verts0 := rawVerts0.length / 3
          let over := MAX_VERTICES < acc.vertex_offset + n_verts0
          let remaining : ℤ := (MAX_VERTICES : ℤ) - acc.vertex_offset
          if over ∧ remaining ≤ 0 then
            { acc with warnings := acc.warnings ++ [truncWarning], truncated := true }
          else
            match fbxGetOne geom.children "PolygonVertexIndex" with
            | none =>
                { acc with
                  warnings :=
                    if over then acc.warnings ++ [truncWarning] else acc.warnings,
                  truncated := if over then true else acc.truncated }
            | some pvi_node =>
              match pvi_node.props.getD 0 (PyVal.list []) with
              | PyVal.list rawIdxVals =>
                let n_verts := if over then remaining.toNat else n_verts0
                let rawVerts := if over then rawVerts0.take (n_verts * 3) else rawVerts0
                let positions := rawVerts.map pyFloatOf
                let rawIdx := rawIdxVals.map pyIntOf
                let nl := readFbxLayer geom.children "LayerElementNormal"
                  "Normals" "NormalsIndex"
                let ul := readFbxLayer geom.children "LayerElementUV" "UV" "UVIndex"
                let polys := buildPolygons rawIdx
                let m := expandPolys acc.vertex_offset positions nl ul polys
                { warnings :=
                    if over then acc.warnings ++ [truncWarning] else acc.warnings,
                  all_positions := acc.all_positions ++ m.mpos,
                  all_normals := acc.all_normals ++ m.mnorm,
                  all_uvs := acc.all_uvs ++ m.muv,
                  all_indices :=
                    acc.all_indices ++ m.mindices.map (· + acc.vertex_offset),
                  face_count := acc.face_count + m.mfc,
                  vertex_offset := acc.vertex_offset + m.ovi,
                  truncated := if over then true else acc.truncated,
                  geomMaps :=
                    match geom.props.head? with
                    | some gid => asetPy acc.geomMaps gid m.o2e
                    | none => acc.geomMaps }
              | _ =>
                { acc with
                  warnings :=
                    if over then acc.warnings ++ [truncWarning] else acc.warnings,
                  truncated := if over then true else acc.truncated }
      | _ => acc

/-- The geometry-only output of `_parse_fbx` (the `result` dict of lines
916-928, before the optional material/skeleton/animation keys are added;
`geomMaps` carries the side table `geom_orig_to_expanded` consumed by the
skeleton weight distribution). -/
structure FbxGeo where
  vertex_count : ℕ
  face_count : ℕ
  has_normals : Bool
  has_uvs : Bool
  bounds : Bounds
  positions : List ℚ
  normals : List ℚ
  uvs : List ℚ
  indices : List ℕ
  warnings : List String
  geomMaps : List (PyVal × List (ℤ × List ℕ))

/-- The geometry portion of `Model3DProcessor._parse_fbx` (model3d.py lines
706-928), taking the already-decoded node tree (the result of
`_FbxBinaryReader.read_all_nodes`).  The optional material / skeleton /
animation sections (each wrapped in its own `try`) are modelled separately
where needed and do not alter any of these fields. -/
def parse_fbx_geometry (nodes : FbxDict) : Except String FbxGeo :=
  match fbxGetOne nodes "Objects" with
  | none => Except.error "FBX file has no Objects section"
  | some objects_node =>
    let geom_nodes := fbxEnsureList objects_node.children "Geometry"
    if geom_nodes.isEmpty then Except.error "FBX file has no Geometry nodes"
    else
      let acc := geom_nodes.foldl processGeom ⟨[], [], [], [], [], 0, 0, false, []⟩
      Except.ok
        { vertex_count := acc.all_positions.length / 3,
          face_count := acc.face_count,
          has_normals := acc.all_normals ≠ [],
          has_uvs := acc.all_uvs ≠ [],
          bounds := compute_bounds acc.all_positions,
          positions := acc.all_positions.map (pyRound 6),
          normals :=
            if acc.all_normals ≠ [] then acc.all_normals.map (pyRound 6) else [],
          uvs := if acc.all_uvs ≠ [] then acc.all_uvs.map (pyRound 6) else [],
          indices := acc.all_indices,
          warnings := acc.warnings,
          geomMaps := acc.geomMaps }

-- ------------------------------------------------------------------
-- FBX skeleton weight distribution (`_parse_fbx`, lines 942-971)
-- ------------------------------------------------------------------

/-- One cluster tuple `(bone_index, geom_id, vi, wt)` as produced by
`_extract_fbx_skeleton` (line 360-361). -/
structure FbxCluster where
  bone_index : ℕ
  geom_id : Option PyVal
  vi : List ℤ
  wt : List ℚ

def o2eLookup (gm : List (PyVal × List (ℤ × List ℕ))) (gid : Option PyVal) :
    List (ℤ × List ℕ) :=
  match gid with
  | none => []
  | some g => (agetPy gm g).getD []

def addInfluence (infl : List (List (ℕ × ℚ))) (i : ℕ) (p : ℕ × ℚ) :
    List (List (ℕ × ℚ)) :=
  List.modify (fun l => l ++ [p]) i infl

/-- One cluster of the influence-collection loop (lines 948-956): every
expanded output vertex of the cluster's original vertex receives the
`(bone, weight)` influence, weights `≤ 0` are skipped. -/
def clusterInfluences (vc : ℕ) (gm : List (PyVal × List (ℤ × List ℕ)))
    (infl : List (List (ℕ × ℚ))) (c : FbxCluster) : List (List (ℕ × ℚ)) :=
  let o2e := o2eLookup gm c.geom_id
  c.vi.enum.foldl
    (fun infl iv =>
      let w := c.wt.getD iv.1 0
      if w ≤ 0 then infl
      else
        (o2eGet o2e iv.2).foldl
          (fun infl exp =>
            if exp < vc then addInfluence infl exp (c.bone_index, w) else infl)
          infl)
    infl

/-- `influences = [[] for _ in range(vertex_count)]` followed by the cluster
loop (lines 947-956). -/
def buildInfluences (vc : ℕ) (gm : List (PyVal × List (ℤ × List ℕ)))
    (clusters : List FbxCluster) : List (List (ℕ × ℚ)) :=
  clusters.foldl (clusterInfluences vc gm) (List.replicate vc [])

-- ------------------------------------------------------------------
-- Python string helpers for the OBJ parser
-- ------------------------------------------------------------------

/-- Text is processed as `List Char` (several of Lean's `String` functions do
not reduce in the kernel); `String.toList` is applied once at the parser
boundary. -/
def splitOnChar (sep : Char) : List Char → List Char → List (List Char)
  | cur, [] => [cur]
  | cur, c :: rest =>
      if c = sep then cur :: splitOnChar sep [] rest
      else splitOnChar sep (cur ++ [c]) rest

/-- Python `str.split()` with no argument: split on whitespace runs,
discarding empty tokens. -/
def splitWsChars : List Char → List Char → List (List Char)
  | cur, [] => if cur = [] then [] else [cur]
  | cur, c :: rest =>
      if c.isWhitespace then
        (if cur = [] then splitWsChars [] rest else cur :: splitWsChars [] rest)
      else splitWsChars (cur ++ [c]) rest

/-- Python `str.strip()` with no argument. -/
def trimChars (cs : List Char) : List Char :=
  ((cs.dropWhile Char.isWhitespace).reverse.dropWhile Char.isWhitespace).reverse

def digitsVal (cs : List Char) : ℕ :=
  cs.foldl (fun n c => 10 * n + (c.toNat - ('0').toNat)) 0

/-- Python `int(s)` on a decimal literal with optional sign; `none` models
the `ValueError` raised on anything else. -/
def pyIntOfTok (tok : List Char) : Option ℤ :=
  match tok with
  | [] => none
  | '+' :: cs =>
      if !cs.isEmpty && cs.all Char.isDigit then some (digitsVal cs) else none
  | '-' :: cs =>
      if !cs.isEmpty && cs.all Char.isDigit then some (-(digitsVal cs : ℤ)) else none
  | cs => if cs.all Char.isDigit then some (digitsVal cs) else none

/-- Python `float(s)` on the numeric literal forms `[±](d* [. d*])[(e|E)[±]d+]`
(at least one digit in the mantissa).  `none` models `ValueError`; the
special spellings `inf`/`nan` that Python also accepts are not modelled (no
input used below contains them). -/
def pyFloatOfTok (tok : List Char) : Option ℚ :=
  match tok with
  | [] => none
  | cs0 =>
    let sgnCs : ℚ × List Char :=
      match cs0 with
      | '+' :: r => (1, r)
      | '-' :: r => (-1, r)
      | r => (1, r)
    let sgn := sgnCs.1
    let cs := sgnCs.2
    let mantExp := cs.span (fun c => c != 'e' && c != 'E')
    let mant := mantExp.1
    let expPart : Option ℤ :=
      match mantExp.2 with
      | [] => some 0
      | _ :: er =>
        match er with
        | '+' :: ds =>
            if !ds.isEmpty && ds.all Char.isDigit then some (digitsVal ds) else none
        | '-' :: ds =>
            if !ds.isEmpty && ds.all Char.isDigit then some (-(digitsVal ds : ℤ))
            else none
        | ds => if !ds.isEmpty && ds.all Char.isDigit then some (digitsVal ds) else none
    let ipfp := mant.span (fun c => c != '.')
    let mantVal : Option ℚ :=
      match ipfp.2 with
      | [] =>
          if !ipfp.1.isEmpty && ipfp.1.all Char.isDigit then some (digitsVal ipfp.1)
          else none
      | _ :: fr =>
          if ipfp.1.all Char.isDigit && fr.all Char.isDigit
              && (!ipfp.1.isEmpty || !fr.isEmpty) then
            some ((digitsVal ipfp.1 : ℚ) + (digitsVal fr : ℚ) / 10 ^ fr.length)
          else none
    match mantVal, expPart with
    | some m, some e => some (sgn * m * (10 : ℚ) ^ e)
    | _, _ => none

-- ------------------------------------------------------------------
-- OBJ parser (`Model3DProcessor._parse_obj`, model3d.py lines 610-700)
-- ------------------------------------------------------------------

/-- The mutable state of the OBJ line loop (lines 613-623). -/
structure ObjState where
  positions : List (ℚ × ℚ × ℚ)
  normals : List (ℚ × ℚ × ℚ)
  uvs : List (ℚ × ℚ)
  out_positions : List ℚ
  out_normals : List ℚ
  out_uvs : List ℚ
  out_indices : List ℤ
  vmap : List ((ℤ × ℤ × ℤ) × ℕ)
  face_count : ℕ
  warnings : List String
  truncated : Bool

def vmapFind (m : List ((ℤ × ℤ × ℤ) × ℕ)) (k : ℤ × ℤ × ℤ) : Option ℕ :=
  (m.find? (fun e => e.1 == k)).map (fun e => e.2)

/-- The pure part of one face-vertex step (lines 653-674), after the three
`v/vt/vn` indices have been parsed: deduplicate through `vertex_map`,
appending a new output vertex unless the vertex ceiling is hit (in which
case the face loop breaks, flagged by the returned `Bool`). -/
def objFaceVertCore (s : ObjState) (fv : List ℤ) (key : ℤ × ℤ × ℤ) :
    ObjState × List ℤ × Bool :=
  match vmapFind s.vmap key with
  | some existing => (s, fv ++ [(existing : ℤ)], false)
  | none =>
    if MAX_VERTICES ≤ s.out_positions.length / 3 then
      let s' :=
        if s.truncated then s
        else { s with warnings := s.warnings ++ [truncWarning], truncated := true }
      (s', fv, true)
    else
      let idx := s.out_positions.length / 3
      let out_positions :=
        if 0 ≤ key.1 ∧ key.1 < (s.positions.length : ℤ) then
          match s.positions.getD key.1.toNat (0, 0, 0) with
          | (a, b, c) => s.out_positions ++ [a, b, c]
        else s.out_positions ++ [0, 0, 0]
      let out_normals :=
        if 0 ≤ key.2.2 ∧ key.2.2 < (s.normals.length : ℤ) then
          match s.normals.getD key.2.2.toNat (0, 0, 0) with
          | (a, b, c) => s.out_normals ++ [a, b, c]
        else s.out_normals
      let out_uvs :=
        if 0 ≤ key.2.1 ∧ key.2.1 < (s.uvs.length : ℤ) then
          match s.uvs.getD key.2.1.toNat (0, 0) with
          | (a, b) => s.out_uvs ++ [a, b]
        else s.out_uvs
      let s' := { s with out_positions := out_positions, out_normals := out_normals,
                         out_uvs := out_uvs, vmap := (key, idx) :: s.vmap }
      (s', fv ++ [(idx : ℤ)], false)

/-- One vertex reference of a face line (lines 645-674): split at `/`,
resolve the 1-based `v/vt/vn` triple (missing components are `-1`, a
malformed component raises), then run the pure core. -/
def objFaceVert (s : ObjState) (fv : List ℤ) (vert : List Char) :
    Except String (ObjState × List ℤ × Bool) :=
  let idxs := splitOnChar '/' [] vert
  let readIdx : List Char → Except String ℤ := fun t =>
    match pyIntOfTok t with
    | some n => Except.ok (n - 1)
    | none => Except.error "Parse error: invalid face index"
  let pv := if (idxs.getD 0 []) ≠ [] then readIdx (idxs.getD 0 [])
            else Except.ok (-1)
  let pt := if 1 < idxs.length ∧ (idxs.getD 1 []) ≠ [] then readIdx (idxs.getD 1 [])
            else Except.ok (-1)
  let pn := if 2 < idxs.length ∧ (idxs.getD 2 []) ≠ [] then readIdx (idxs.getD 2 [])
            else Except.ok (-1)
  pv >>= fun v_idx => pt >>= fun vt_idx => pn >>= fun vn_idx =>
    Except.ok (objFaceVertCore s fv (v_idx, vt_idx, vn_idx))

def objFaceVerts (s : ObjState) (fv : List ℤ) :
    List (List Char) → Except String (ObjState × List ℤ × Bool)
  | [] => Except.ok (s, fv, false)
  | v :: rest => do
    let r ← objFaceVert s fv v
    if r.2.2 then Except.ok r else objFaceVerts r.1 r.2.1 rest

/-- One line of `_parse_obj` (lines 627-683). -/
def objLine (s : ObjState) (rawLine : List Char) : Except String ObjState :=
  let line := trimChars rawLine
  if line = [] ∨ line.getD 0 ' ' = '#' then Except.ok s
  else
    match splitWsChars [] line with
    | [] => Except.ok s
    | tag :: rest =>
      let nparts := rest.length + 1
      let readF : List Char → Except String ℚ := fun t =>
        match pyFloatOfTok t with
        | some q => Except.ok q
        | none => Except.error "Parse error: could not convert string to float"
      if tag = ['v'] ∧ 4 ≤ nparts then do
        let a ← readF (rest.getD 0 [])
        let b ← readF (rest.getD 1 [])
        let c ← readF (rest.getD 2 [])
        Except.ok { s with positions := s.positions ++ [(a, b, c)] }
      else if tag = ['v', 'n'] ∧ 4 ≤ nparts then do
        let a ← readF (rest.getD 0 [])
        let b ← readF (rest.getD 1 [])
        let c ← readF (rest.getD 2 [])
        Except.ok { s with normals := s.normals ++ [(a, b, c)] }
      else if tag = ['v', 't'] ∧ 3 ≤ nparts then do
        let a ← readF (rest.getD 0 [])
        let b ← readF (rest.getD 1 [])
        Except.ok { s with uvs := s.uvs ++ [(a, b)] }
      else if tag = ['f'] then do
        let r ← objFaceVerts s [] rest
        let s' := r.1
        if s'.truncated then Except.ok s'
        else
          Except.ok { s' with
            out_indices := s'.out_indices ++ fanTriangulate 0 r.2.1,
            face_count := s'.face_count + (r.2.1.length - 2) }
      else Except.ok s

/-- The geometry dict returned by `_parse_obj` (lines 688-700). -/
structure ObjGeo where
  vertex_count : ℕ
  face_count : ℕ
  has_normals : Bool
  has_uvs : Bool
  bounds : Bounds
  positions : List ℚ
  normals : List ℚ
  uvs : List ℚ
  indices : List ℤ
  warnings : List String
deriving DecidableEq, Repr

def objInit : ObjState :=
  ⟨[], [], [], [], [], [], [], [], 0, [], false⟩

/-- `Model3DProcessor._parse_obj` on the file's text content (the
`path.read_text` call is outside the model).  A malformed numeric token
fails the whole parse, as in the source. -/
def parse_obj (text : String) : Except String ObjGeo := do
  let s ← (splitOnChar '\n' [] text.toList).foldlM objLine objInit
  Except.ok
    { vertex_count := s.out_positions.length / 3,
      face_count := s.face_count,
      has_normals := s.out_normals ≠ [],
      has_uvs := s.out_uvs ≠ [],
      bounds := compute_bounds s.out_positions,
      positions := s.out_positions.map (pyRound 6),
      normals := if s.out_normals ≠ [] then s.out_normals.map (pyRound 6) else [],
      uvs := if s.out_uvs ≠ [] then s.out_uvs.map (pyRound 6) else [],
      indices := s.out_indices,
      warnings := s.warnings }

-- ------------------------------------------------------------------
-- Binary decoding helpers for glTF/GLB
-- ------------------------------------------------------------------

/-- Little-endian unsigned integer from `len` bytes starting at `off`
(`struct.unpack_from` with `B`/`H`/`I`); bytes out of range read as 0. -/
def readLEBytes (buf : List ℕ) (off len : ℕ) : ℕ :=
  (List.range len).foldr (fun i acc => acc * 256 + (buf.getD (off + i) 0) % 256) 0

/-- Two's-complement reinterpretation (`b`/`h` formats). -/
def toSigned (v bits : ℕ) : ℤ :=
  if v < 2 ^ (bits - 1) then (v : ℤ) else (v : ℤ) - 2 ^ bits

/-- IEEE-754 binary32 value of a 32-bit word, as a rational.  Infinities and
NaN (exponent 255) have no rational value and are mapped to 0; no input used
in the theorems decodes such a word. -/
def f32FromBits (w : ℕ) : ℚ :=
  let sign : ℚ := if w / 2 ^ 31 % 2 = 1 then -1 else 1
  let ex : ℕ := w / 2 ^ 23 % 256
  let man : ℕ := w % 2 ^ 23
  if ex = 0 then sign * (man : ℚ) / 2 ^ 149
  else if ex = 255 then 0
  else sign * ((2 ^ 23 + man : ℕ) : ℚ) * (2 : ℚ) ^ ((ex : ℤ) - 150)

/-- One component decode per glTF `componentType` (the `fmt_map` of
`read_accessor`, lines 1095-1097; an unknown component type falls back to
`"f"`). -/
def decodeComp (buf : List ℕ) (o compType : ℕ) : ℚ :=
  match compType with
  | 5120 => (toSigned (readLEBytes buf o 1) 8 : ℚ)
  | 5121 => (readLEBytes buf o 1 : ℚ)
  | 5122 => (toSigned (readLEBytes buf o 2) 16 : ℚ)
  | 5123 => (readLEBytes buf o 2 : ℚ)
  | 5125 => (readLEBytes buf o 4 : ℚ)
  | _ => f32FromBits (readLEBytes buf o 4)

/-- `type_sizes.get(acc_type, 1)` (lines 1087-1089). -/
def gltfTypeSize (t : String) : ℕ :=
  if t = "SCALAR" then 1 else if t = "VEC2" then 2 else if t = "VEC3" then 3
  else if t = "VEC4" then 4 else if t = "MAT2" then 4 else if t = "MAT3" then 9
  else if t = "MAT4" then 16 else 1

/-- `comp_sizes.get(comp_type, 4)` (lines 1091-1093). -/
def gltfCompSize (c : ℕ) : ℕ :=
  match c with
  | 5120 => 1 | 5121 => 1 | 5122 => 2 | 5123 => 2 | 5125 => 4 | 5126 => 4
  | _ => 4

-- ------------------------------------------------------------------
-- glTF data model (the JSON fields the extractor reads)
-- ------------------------------------------------------------------

structure GBufferView where
  buffer : Option ℕ := none
  byteOffset : Option ℕ := none
  byteLength : Option ℕ := none
  byteStride : Option ℕ := none

structure GAccessor where
  bufferView : Option ℕ := none
  byteOffset : Option ℕ := none
  count : Option ℕ := none
  componentType : Option ℕ := none
  type : Option String := none

structure GPrimitive where
  attributes : List (String × ℕ) := []
  indices : Option ℕ := none

structure GMesh where
  primitives : List GPrimitive := []

structure GNode where
  name : Option String := none
  children : List ℕ := []

structure GSkin where
  joints : List ℕ := []
  inverseBindMatrices : Option ℕ := none

structure GTarget where
  node : Option ℕ := none
  path : Option String := none

structure GChannel where
  target : Option GTarget := none
  sampler : Option ℕ := none

structure GSampler where
  input : Option ℕ := none
  output : Option ℕ := none

structure GAnim where
  name : Option String := none
  channels : List GChannel := []
  samplers : List GSampler := []

/-- The glTF JSON document, restricted to the keys `_extract_gltf_data`
reads.  The `materials`/`textures`/`images` sections (consumed only by the
texture side-effect code, lines 1192-1234) are not modelled; they do not
influence any other output field. -/
structure Gltf where
  meshes : List GMesh := []
  accessors : List GAccessor := []
  bufferViews : List GBufferView := []
  skins : List GSkin := []
  nodes : List GNode := []
  animations : List GAnim := []

def agetN {α : Type} (m : List (ℕ × α)) (k : ℕ) : Option α :=
  (m.find? (fun e => e.1 == k)).map (fun e => e.2)

def attrGet (attrs : List (String × ℕ)) (k : String) : Option ℕ :=
  (attrs.find? (fun e => e.1 == k)).map (fun e => e.2)

-- ------------------------------------------------------------------
-- `read_accessor` (model3d.py lines 1068-1113)
-- ------------------------------------------------------------------

/-- `read_accessor(acc_idx)`: resolve accessor → bufferView → buffer,
then unpack `count × n_components` components at the given stride; a
component whose byte range runs past the buffer end reads as `0`
(`values.append(0)`).  A negative accessor index (rejected by the source's
`acc_idx < 0` test) is not representable here. -/
def read_accessor (accessors : List GAccessor) (bufferViews : List GBufferView)
    (buffers : List (List ℕ)) (accIdx : ℕ) : List ℚ :=
  match accessors.get? accIdx with
  | none => []
  | some acc =>
    match bufferViews.get? (acc.bufferView.getD 0) with
    | none => []
    | some bv =>
      match buffers.get? (bv.buffer.getD 0) with
      | none => []
      | some buf =>
        let byteOffset := bv.byteOffset.getD 0 + acc.byteOffset.getD 0
        let count := acc.count.getD 0
        let compType := acc.componentType.getD 5126
        let nComp := gltfTypeSize (acc.type.getD "SCALAR")
        let compSize := gltfCompSize compType
        let stride := bv.byteStride.getD (compSize * nComp)
        ((List.range count).map (fun i =>
          (List.range nComp).map (fun j =>
            let o := byteOffset + i * stride + j * compSize
            if o + compSize ≤ buf.length then decodeComp buf o compType
            else 0))).flatten

-- ------------------------------------------------------------------
-- glTF mesh/primitive loop (model3d.py lines 1116-1173)
-- ------------------------------------------------------------------

/-- Accumulated state of the primitive loop (lines 1055-1063). -/
structure GltfAcc where
  warnings : List String
  all_positions : List ℚ
  all_normals : List ℚ
  all_uvs : List ℚ
  all_joints : List ℚ
  all_weights : List ℚ
  all_indices : List ℤ
  face_count : ℕ
  vertex_offset : ℕ

/-- One primitive (lines 1117-1173); the returned flag is the `break` taken
when the vertex ceiling was already full (`remaining <= 0`). -/
def processPrim (accessors : List GAccessor) (bufferViews : List GBufferView)
    (buffers : List (List ℕ)) (st : GltfAcc) (p : GPrimitive) : GltfAcc × Bool :=
  let rd : Option ℕ → List ℚ := fun oi =>
    match oi with
    | some i => read_accessor accessors bufferViews buffers i
    | none => []
  let pos_data := rd (attrGet p.attributes "POSITION")
  let norm_data := rd (attrGet p.attributes "NORMAL")
  let uv_data := rd (attrGet p.attributes "TEXCOORD_0")
  let joint_data := rd (attrGet p.attributes "JOINTS_0")
  let weight_data := rd (attrGet p.attributes "WEIGHTS_0")
  let n_verts := pos_data.length / 3
  let over := MAX_VERTICES < st.vertex_offset + n_verts
  let remaining : ℤ := (MAX_VERTICES : ℤ) - st.vertex_offset
  if over ∧ remaining ≤ 0 then
    ({ st with warnings := st.warnings ++ [truncWarning] }, true)
  else
    let n_verts := if over then remaining.toNat else n_verts
    let pos_data := if over then pos_data.take (n_verts * 3) else pos_data
    let norm_data :=
      if over then (if norm_data ≠ [] then norm_data.take (n_verts * 3) else [])
      else norm_data
    let uv_data :=
      if over then (if uv_data ≠ [] then uv_data.take (n_verts * 2) else [])
      else uv_data
    let joint_data :=
      if over then (if joint_data ≠ [] then joint_data.take (n_verts * 4) else [])
      else joint_data
    let weight_data :=
      if over then (if weight_data ≠ [] then weight_data.take (n_verts * 4) else [])
      else weight_data
    let warnings := if over then st.warnings ++ [truncWarning] else st.warnings
    let base : GltfAcc :=
      { warnings := warnings,
        all_positions := st.all_positions ++ pos_data,
        all_normals := st.all_normals ++ norm_data,
        all_uvs := st.all_uvs ++ uv_data,
        all_joints := st.all_joints ++ joint_data,
        all_weights := st.all_weights ++ weight_data,
        all_indices := st.all_indices,
        face_count := st.face_count,
        vertex_offset := st.vertex_offset }
    match p.indices with
    | some iacc =>
      let idx_data := read_accessor accessors bufferViews buffers iacc
      ({ base with
          all_indices :=
            base.all_indices ++ idx_data.map (fun q => pyTrunc q + st.vertex_offset),
          face_count := base.face_count + idx_data.length / 3,
          vertex_offset := st.vertex_offset + n_verts }, false)
    | none =>
      ({ base with
          all_indices :=
            base.all_indices ++
              ((pyRangeStep (n_verts - 2) 3).map (fun i =>
                [((st.vertex_offset + i : ℕ) : ℤ),
                 ((st.vertex_offset + i + 1 : ℕ) : ℤ),
                 ((st.vertex_offset + i + 2 : ℕ) : ℤ)])).flatten,
          face_count := base.face_count + n_verts / 3,
          vertex_offset := st.vertex_offset + n_verts }, false)

/-- The inner primitive loop with its `break`. -/
def processPrims (accessors : List GAccessor) (bufferViews : List GBufferView)
    (buffers : List (List ℕ)) (st : GltfAcc) :
    List GPrimitive → GltfAcc
  | [] => st
  | p :: rest =>
    let r := processPrim accessors bufferViews buffers st p
    if r.2 then r.1 else processPrims accessors bufferViews buffers r.1 rest

/-- The `POSITION` data a primitive reads (the `rd` lambda of `processPrim`
applied to the `POSITION` attribute), named for use in statements. -/
def posData (A : List GAccessor) (BV : List GBufferView)
    (bufs : List (List ℕ)) (p : GPrimitive) : List ℚ :=
  match attrGet p.attributes "POSITION" with
  | some i => read_accessor A BV bufs i
  | none => []

-- ------------------------------------------------------------------
-- glTF skeleton (model3d.py lines 1237-1283)
-- ------------------------------------------------------------------

structure GBone where
  name : String
  parent : ℤ
  inverse_bind_matrix : List ℚ
deriving DecidableEq, Repr

def identity16 : List ℚ :=
  [1, 0, 0, 0, 0, 1, 0, 0, 0, 0, 1, 0, 0, 0, 0, 1]

/-- `node_parents`: invert each node's `children` list (lines 1245-1248);
built in iteration order with later assignments overriding earlier ones. -/
def nodeParents (nodes : List GNode) : List (ℕ × ℕ) :=
  nodes.enum.foldl
    (fun m p => p.2.children.foldl (fun m c => (c, p.1) :: m) m) []

/-- The bone loop (lines 1255-1276): emit bones in `joints` order, break at
`_MAX_BONES`; a bone's parent is the already-assigned bone index of its
node's direct parent, or `-1`; `joint_to_bone` is threaded through and
returned for the animation extractor. -/
def buildBonesGo (nodes : List GNode) (nps : List (ℕ × ℕ)) (ibm : List ℚ) :
    ℕ → List (ℕ × ℕ) → List ℕ → List GBone × List (ℕ × ℕ)
  | _, j2b, [] => ([], j2b)
  | i, j2b, jni :: rest =>
    if MAX_BONES ≤ i then ([], j2b)
    else
      let node := (nodes.get? jni).getD ⟨none, []⟩
      let bone_name := node.name.getD ("bone_" ++ toString i)
      let parent : ℤ :=
        match agetN nps jni with
        | none => -1
        | some pn =>
          match agetN j2b pn with
          | some b => (b : ℤ)
          | none => -1
      let ibmv :=
        if ibm ≠ [] ∧ i * 16 + 15 < ibm.length then
          ((ibm.drop (i * 16)).take 16).map (pyRound 6)
        else identity16
      let r := buildBonesGo nodes nps ibm (i + 1) ((jni, i) :: j2b) rest
      (⟨bone_name, parent, ibmv⟩ :: r.1, r.2)

structure GltfSkeletonOut where
  bones : List GBone
  bone_indices : List ℤ
  bone_weights : List ℚ
deriving DecidableEq, Repr

-- ------------------------------------------------------------------
-- glTF animations (model3d.py lines 1288-1355)
-- ------------------------------------------------------------------

structure GTrack where
  bone_index : ℕ
  property : String
  times : List ℚ
  values : List ℚ
deriving DecidableEq, Repr

structure GAnimOut where
  name : String
  duration : ℚ
  tracks : List GTrack
deriving DecidableEq, Repr

/-- One channel of the animation loop (lines 1299-1344), threading
`(tracks, max_time)`. -/
def processChannel (accessors : List GAccessor) (bufferViews : List GBufferView)
    (buffers : List (List ℕ)) (j2b : List (ℕ × ℕ)) (samplers : List GSampler)
    (acc : List GTrack × ℚ) (ch : GChannel) : List GTrack × ℚ :=
  let target := ch.target.getD ⟨none, none⟩
  match target.node, target.path with
  | some node_idx, some path =>
    (match agetN j2b node_idx with
     | none => acc
     | some bone_idx =>
       match ch.sampler with
       | none => acc
       | some sIdx =>
         match samplers.get? sIdx with
         | none => acc
         | some smp =>
           match smp.input, smp.output with
           | some iacc, some oacc =>
             let times := read_accessor accessors bufferViews buffers iacc
             let values := read_accessor accessors bufferViews buffers oacc
             if times = [] ∨ values = [] then acc
             else
               let n_keys := times.length
               let components := values.length / n_keys
               let si := strideIdx n_keys
               let s_times := si.map (fun i => pyRound 6 (times.getD i 0))
               let s_values :=
                 (si.map (fun i =>
                   (List.range components).map (fun c =>
                     let idx := i * components + c
                     if idx < values.length then pyRound 6 (values.getD idx 0)
                     else 0))).flatten
               let max_time :=
                 if s_times ≠ [] then Max.max acc.2 (s_times.getLast?.getD 0)
                 else acc.2
               (acc.1 ++ [⟨bone_idx, path, s_times, s_values⟩], max_time)
           | _, _ => acc)
  | _, _ => acc

/-- One animation (lines 1292-1351): kept only if it produced tracks. -/
def processAnim (accessors : List GAccessor) (bufferViews : List GBufferView)
    (buffers : List (List ℕ)) (j2b : List (ℕ × ℕ)) (anim : GAnim) :
    Option GAnimOut :=
  let r := anim.channels.foldl
    (processChannel accessors bufferViews buffers j2b anim.samplers) ([], 0)
  if r.1 ≠ [] then some ⟨anim.name.getD "Animation", pyRound 4 r.2, r.1⟩
  else none

-- ------------------------------------------------------------------
-- `_extract_gltf_data` (model3d.py lines 1051-1357)
-- ------------------------------------------------------------------

/-- The result dict of `_extract_gltf_data` (minus the unmodelled
`materials` key and `_texture_files` side channel). -/
structure GltfResult where
  vertex_count : ℕ
  face_count : ℕ
  has_normals : Bool
  has_uvs : Bool
  bounds : Bounds
  positions : List ℚ
  normals : List ℚ
  uvs : List ℚ
  indices : List ℤ
  warnings : List String
  skeleton : Option GltfSkeletonOut
  animations : Option (List GAnimOut)

def gltfInit : GltfAcc :=
  ⟨[], [], [], [], [], [], [], 0, 0⟩

/-- `Model3DProcessor._extract_gltf_data(gltf, buffers_data)`. -/
def extract_gltf_data (g : Gltf) (buffers : List (List ℕ)) : GltfResult :=
  let A := g.accessors
  let BV := g.bufferViews
  let st := g.meshes.foldl
    (fun st m => processPrims A BV buffers st m.primitives) gltfInit
  let skelPair : Option GltfSkeletonOut × List (ℕ × ℕ) :=
    match g.skins.head? with
    | some skin =>
      if st.all_joints ≠ [] then
        let nps := nodeParents g.nodes
        let ibm_data :=
          match skin.inverseBindMatrices with
          | some i => read_accessor A BV buffers i
          | none => []
        let bb := buildBonesGo g.nodes nps ibm_data 0 [] skin.joints
        (some ⟨bb.1, st.all_joints.map pyTrunc,
               st.all_weights.map (pyRound 6)⟩, bb.2)
      else (none, [])
    | none => (none, [])
  let anims : List GAnimOut :=
    if ¬ g.animations.isEmpty ∧ skelPair.2 ≠ [] then
      g.animations.filterMap (processAnim A BV buffers skelPair.2)
    else []
  { vertex_count := st.all_positions.length / 3,
    face_count := st.face_count,
    has_normals := st.all_normals ≠ [],
    has_uvs := st.all_uvs ≠ [],
    bounds := compute_bounds st.all_positions,
    positions := st.all_positions.map (pyRound 6),
    normals :=
      if st.all_normals ≠ [] then st.all_normals.map (pyRound 6) else [],
    uvs := if st.all_uvs ≠ [] then st.all_uvs.map (pyRound 6) else [],
    indices := st.all_indices,
    warnings := st.warnings,
    skeleton := skelPair.1,
    animations := if anims ≠ [] then some anims else none }

-- ------------------------------------------------------------------
-- GLB container unwrapping (`_parse_glb`, model3d.py lines 1019-1049)
-- ------------------------------------------------------------------

def readU32 (data : List ℕ) (off : ℕ) : ℕ :=
  readLEBytes data off 4

/-- The GLB chunk loop (lines 1033-1044): read `[length][type][data]`
records; the JSON chunk (type 0x4E4F534A) and BIN chunk (type 0x004E4942)
are each remembered (later occurrences override). -/
def glbChunksGo (data : List ℕ) : ℕ → ℕ → Option (List ℕ) → List ℕ →
    Option (List ℕ) × List ℕ
  | 0, _, js, bin => (js, bin)
  | fuel + 1, offset, js, bin =>
    if offset < data.length then
      if data.length < offset + 8 then (js, bin)
      else
        let chunk_length := readU32 data offset
        let chunk_type := readU32 data (offset + 4)
        let chunk := (data.drop (offset + 8)).take chunk_length
        let offset' := offset + 8 + chunk_length
        if chunk_type = 0x4E4F534A then glbChunksGo data fuel offset' (some chunk) bin
        else if chunk_type = 0x004E4942 then glbChunksGo data fuel offset' js chunk
        else glbChunksGo data fuel offset' js bin
    else (js, bin)

/-- The chunk loop with enough fuel to be exact: every iteration advances
`offset` by at least 8, and the loop stops once `offset ≥ len(data)`, so
`data.length` iterations can never be exhausted. -/
def glbChunks (data : List ℕ) (offset : ℕ) (js : Option (List ℕ))
    (bin : List ℕ) : Option (List ℕ) × List ℕ :=
  glbChunksGo data (data.length + 1) offset js bin

/-- `Model3DProcessor._parse_glb` up to (but not including) the stdlib
`json.loads` call on the JSON chunk: header validation and chunk scanning,
returning the JSON chunk's raw bytes together with the BIN chunk (empty
`b""` when absent).  The subsequent call is
`_extract_gltf_data(json.loads(json_chunk), [bin_data], …)`. -/
def parse_glb (data : List ℕ) : Except String (List ℕ × List ℕ) :=
  if data.length < 12 then Except.error "GLB file too small"
  else if readU32 data 0 ≠ 0x46546C67 then Except.error "Not a valid GLB file"
  else
    let r := glbChunks data 12 none []
    match r.1 with
    | none => Except.error "No JSON chunk in GLB"
    | some js => Except.ok (js, r.2)

/-- ASCII bytes of a string (UTF-8 of a pure-ASCII string). -/
def asciiBytes (s : String) : List ℕ :=
  s.toList.map Char.toNat

/-- 32-bit little-endian encoding of a number. -/
def le32 (n : ℕ) : List ℕ :=
  [n % 256, n / 256 % 256, n / 65536 % 256, n / 16777216 % 256]

-- ------------------------------------------------------------------
-- Concrete inputs used by the theorems
-- ------------------------------------------------------------------

/-- An FBX node tree holding one `Mesh` geometry with a single source vertex
and `k` triangles `[0, 0, ~0]` in `PolygonVertexIndex` (each stored as
`0, 0, -1`). -/
def fbxPolyGeom (k : ℕ) : FbxNode :=
  FbxNode.mk "Geometry"
    [PyVal.int 1, PyVal.str "geom", PyVal.str "Mesh"]
    [("Vertices", false, [FbxNode.mk "Vertices"
        [PyVal.list [PyVal.float 0, PyVal.float 0, PyVal.float 0]] []]),
     ("PolygonVertexIndex", false, [FbxNode.mk "PolygonVertexIndex"
        [PyVal.list ((List.replicate k
          [PyVal.int 0, PyVal.int 0, PyVal.int (-1)]).flatten)] []])]

def fbxPolyTree (k : ℕ) : FbxDict :=
  [("Objects", false, [FbxNode.mk "Objects" [] [
     ("Geometry", false, [fbxPolyGeom k])]])]

/-- The initial accumulator of the FBX geometry loop. -/
def fbxAccInit : FbxAcc := ⟨[], [], [], [], [], 0, 0, false, []⟩

/-- An FBX node tree whose single `Mesh` geometry has zero vertices and no
polygons: a structurally valid file with zero vertices. -/
def fbxEmptyTree : FbxDict :=
  [("Objects", false, [FbxNode.mk "Objects" [] [
    ("Geometry", false, [FbxNode.mk "Geometry"
       [PyVal.int 1, PyVal.str "g", PyVal.str "Mesh"]
       [("Vertices", false, [FbxNode.mk "Vertices" [PyVal.list []] []]),
        ("PolygonVertexIndex", false,
         [FbxNode.mk "PolygonVertexIndex" [PyVal.list []] []])]])]])]

/-- The geometry `parse_fbx_geometry` produces for `fbxEmptyTree`. -/
def gFbxEmpty : FbxGeo :=
  { vertex_count := 0, face_count := 0, has_normals := false,
    has_uvs := false, bounds := ⟨[0, 0, 0], [0, 0, 0], [0, 0, 0]⟩,
    positions := [], normals := [], uvs := [], indices := [], warnings := [],
    geomMaps := [(PyVal.int 1, [])] }

/-- OBJ text: four vertices and the single quad face `f 1 2 3 4`. -/
def objSquare : String :=
  "v 0 0 0\nv 1 0 0\nv 1 1 0\nv 0 1 0\nf 1 2 3 4"

/-- OBJ text of one degenerate triangle (used to instantiate hypotheses). -/
def objTri : String := "v 0 0 0\nf 1 1 1"

/-- The geometry `_parse_obj` produces for `objTri`. -/
def gObjTri : ObjGeo :=
  { vertex_count := 1, face_count := 1, has_normals := false, has_uvs := false,
    bounds := ⟨[0, 0, 0], [0, 0, 0], [0, 0, 0]⟩, positions := [0, 0, 0],
    normals := [], uvs := [], indices := [0, 0, 0], warnings := [] }

/-- A glTF document with one mesh of two primitives, whose `POSITION`
accessors declare 100001 and 1 vertices over an empty buffer (every
component reads as 0). -/
def gltfTwoBigPrims : Gltf :=
  { meshes := [⟨[⟨[("POSITION", 0)], none⟩, ⟨[("POSITION", 1)], none⟩]⟩],
    accessors := [⟨some 0, none, some 100001, some 5121, some "VEC3"⟩,
                  ⟨some 0, none, some 1, some 5121, some "VEC3"⟩],
    bufferViews := [⟨some 0, none, none, none⟩] }

/-- A glTF document with one mesh of three primitives whose `POSITION`
accessors are all `VEC4` (counts 74999, 1, 1) over an empty buffer: the
extractor counts `n_verts = len(pos_data) // 3` but appends the full
4-component data, so the flat position floats outrun the counted
vertices. -/
def gltfVec4Prims : Gltf :=
  { meshes := [⟨[⟨[("POSITION", 0)], none⟩, ⟨[("POSITION", 1)], none⟩,
                 ⟨[("POSITION", 2)], none⟩]⟩],
    accessors := [⟨some 0, none, some 74999, some 5121, some "VEC4"⟩,
                  ⟨some 0, none, some 1, some 5121, some "VEC4"⟩,
                  ⟨some 0, none, some 1, some 5121, some "VEC4"⟩],
    bufferViews := [⟨some 0, none, none, none⟩] }

/-- A glTF document with a 1-vertex `POSITION` and a 3-entry `indices`
accessor whose stored values are all 5 — out of range for the vertex
count. -/
def gltfBadIndices : Gltf :=
  { meshes := [⟨[⟨[("POSITION", 0)], some 1⟩]⟩],
    accessors := [
      { bufferView := some 0, count := some 1, componentType := some 5121,
        type := some "VEC3" },
      { bufferView := some 1, count := some 3, componentType := some 5121,
        type := some "SCALAR" }],
    bufferViews := [
      { buffer := some 0, byteOffset := some 0, byteLength := some 3 },
      { buffer := some 0, byteOffset := some 3, byteLength := some 3 }] }

def gltfBadIndicesBuf : List (List ℕ) := [[0, 0, 0, 5, 5, 5]]

/-- A skinned glTF document whose `WEIGHTS_0` accessor carries the raw
unsigned bytes `[3, 3, 3, 3]` — not normalized; the extractor copies them
verbatim. -/
def gltfRawWeights : Gltf :=
  { meshes := [⟨[⟨[("POSITION", 0), ("JOINTS_0", 1), ("WEIGHTS_0", 2)],
                 none⟩]⟩],
    accessors := [
      ⟨some 0, none, some 1, some 5121, some "VEC3"⟩,
      ⟨some 0, none, some 1, some 5121, some "VEC4"⟩,
      ⟨some 0, none, some 1, some 5121, some "VEC4"⟩],
    bufferViews := [⟨some 0, none, none, none⟩],
    skins := [⟨[0], none⟩],
    nodes := [⟨none, []⟩] }

def gltfRawWeightsBuf : List (List ℕ) := [[3, 3, 3, 3]]

/-- A skinned glTF document with one animation channel whose sampler input
and output accessors declare 501 keyframes (over an empty buffer). -/
def gltfLongAnim : Gltf :=
  { meshes := [⟨[⟨[("JOINTS_0", 0)], none⟩]⟩],
    accessors := [⟨some 0, none, some 1, some 5121, some "VEC4"⟩,
                  ⟨some 0, none, some 501, some 5126, some "SCALAR"⟩,
                  ⟨some 0, none, some 501, some 5126, some "SCALAR"⟩],
    bufferViews := [⟨some 0, none, none, none⟩],
    skins := [⟨[0], none⟩],
    nodes := [⟨none, []⟩],
    animations := [⟨none, [⟨some ⟨some 0, some "rotation"⟩, some 0⟩],
                    [⟨some 1, some 2⟩]⟩] }

/-- A skinned glTF document whose node hierarchy is
`node 0 → node 1 → node 2` with `joints = [0, 2]`: node 2's *direct* parent
(node 1) is not a joint, but its grandparent (node 0) is. -/
def gltfGrandparentJoint : Gltf :=
  { meshes := [⟨[⟨[("JOINTS_0", 0)], none⟩]⟩],
    accessors := [⟨some 0, none, some 1, some 5121, some "VEC4"⟩],
    bufferViews := [⟨some 0, none, none, none⟩],
    skins := [⟨[0, 2], none⟩],
    nodes := [⟨none, [1]⟩, ⟨none, [2]⟩, ⟨none, []⟩] }

/-- First index of `x` in a list (used to state the bone-parent rule). -/
def idxOf (x : ℕ) : List ℕ → Option ℕ
  | [] => none
  | y :: l => if y = x then some 0 else (idxOf x l).map (· + 1)

/-- The parent the glTF bone loop actually assigns to a joint whose node is
`jni`, given the joints `pre` already emitted: the bone index of the node's
DIRECT parent when that parent is an earlier-emitted joint, else `-1`. -/
def directParentRule (nps : List (ℕ × ℕ)) (pre : List ℕ) (jni : ℕ) : ℤ :=
  match agetN nps jni with
  | none => -1
  | some pn =>
    match idxOf pn pre with
    | some b => (b : ℤ)
    | none => -1

/-- The spec's parent rule, written from its words (for comparison in C6):
the bone index of the nearest *ancestor* of a joint node — walking
`node_parents` upward — that is itself a skin joint, or `-1` when none
exists.  `fuel` bounds the walk (the node count suffices). -/
def specNearestAncestorJoint (nps : List (ℕ × ℕ)) (joints : List ℕ) :
    ℕ → ℕ → ℤ
  | 0, _ => -1
  | fuel + 1, jni =>
    match agetN nps jni with
    | none => -1
    | some pn =>
      match joints.indexOf? pn with
      | some j => (j : ℤ)
      | none => specNearestAncestorJoint nps joints fuel pn

/-- The JSON chunk text of the minimal GLB (`\x7b`/`\x7d` are the literal
braces). -/
def c8Json : String := "\x7b\"meshes\":[],\"asset\":\x7b\"version\":\"2.0\"\x7d\x7d"

def c8JsonBytes : List ℕ := asciiBytes c8Json

/-- A minimal GLB buffer: 12-byte header (magic `glTF`, version 2, total
length), then exactly one JSON chunk (type 0x4E4F534A) and no BIN chunk. -/
def c8Glb : List ℕ :=
  le32 0x46546C67 ++ le32 2 ++ le32 (12 + 8 + c8JsonBytes.length) ++
  le32 c8JsonBytes.length ++ le32 0x4E4F534A ++ c8JsonBytes

/-- The parsed form of `c8Json`: `meshes` is empty and no other modelled key
is present (`asset` is never read by the extractor). -/
def c8Gltf : Gltf := {}

/-- Flatten a list of `(x, y, z)` position triples into the flat float list
the decoders build. -/
def flattenTriples (l : List (ℚ × ℚ × ℚ)) : List ℚ :=
  (l.map (fun t => [t.1, t.2.1, t.2.2])).flatten

/-- The per-component update fold equivalent to `boundsLoop` on whole
triples. -/
def boundsFoldStep (s : MinMax × MinMax × MinMax) (t : ℚ × ℚ × ℚ) :
    MinMax × MinMax × MinMax :=
  (mmUpdate s.1 t.1, mmUpdate s.2.1 t.2.1, mmUpdate s.2.2 t.2.2)

/-- The output vertex count of an OBJ parse state. -/
def objCnt (s : ObjState) : ℕ := s.out_positions.length / 3

/-- The loop invariant of `_parse_obj`. -/
structure ObjInv (s : ObjState) : Prop where
  pos3 : s.out_positions.length % 3 = 0
  posLe : s.out_positions.length ≤ 3 * MAX_VERTICES
  truncEq : s.truncated = true → s.out_positions.length = 3 * MAX_VERTICES
  warnEq : s.warnings = if s.truncated then [truncWarning] else []
  vmapLt : ∀ kv ∈ s.vmap, kv.2 < objCnt s
  idxLt : ∀ i ∈ s.out_indices, 0 ≤ i ∧ i < (objCnt s : ℤ)
  idx3 : s.out_indices.length % 3 = 0

/-- The loop invariant of the geometry loop of `_parse_fbx`. -/
structure FbxInv (acc : FbxAcc) : Prop where
  posOff : acc.all_positions.length = 3 * acc.vertex_offset
  idxLt : ∀ i ∈ acc.all_indices, i < acc.vertex_offset
  idx3 : acc.all_indices.length % 3 = 0
  warnEq : acc.warnings = if acc.truncated then [truncWarning] else []

-- ==================================================================
-- Lemmas
-- ==================================================================

-- Batteries marks the arithmetic of `Rat` `@[irreducible]`, which blocks
-- `decide`/`rfl` evaluation of the decoders on concrete inputs; restore the
-- default reducibility for this development.
set_option allowUnsafeReducibility true
attribute [local semireducible] Rat.add Rat.mul Rat.inv Rat.sub Rat.ofScientific

theorem foldl_append_eq {α β : Type} (g : α → List β) :
    ∀ (l : List α) (init : List β),
      l.foldl (fun acc i => acc ++ g i) init = init ++ (l.map g).flatten
  | [], init => by simp
  | x :: xs, init => by
      simp only [List.foldl_cons, List.map_cons, List.flatten_cons,
        foldl_append_eq g xs]
      rw [List.append_assoc]

theorem fanTriangulate_eq {α : Type} (d : α) (fv : List α) :
    fanTriangulate d fv =
      ((List.range' 1 (fv.length - 2)).map
        (fun i => [fv.getD 0 d, fv.getD i d, fv.getD (i + 1) d])).flatten := by
  unfold fanTriangulate
  rw [foldl_append_eq]
  simp

theorem fanTriangulate_length {α : Type} (d : α) (fv : List α) :
    (fanTriangulate d fv).length = 3 * (fv.length - 2) := by
  rw [fanTriangulate_eq, List.length_flatten, List.map_map]
  have h : (List.length ∘ fun i => [fv.getD 0 d, fv.getD i d, fv.getD (i + 1) d]) =
      fun _ => 3 := by
    funext i; simp [Function.comp]
  rw [h, List.map_const', List.sum_replicate, List.length_range', smul_eq_mul,
    Nat.mul_comm]

theorem mem_fanTriangulate {α : Type} (d : α) (fv : List α) (x : α)
    (hx : x ∈ fanTriangulate d fv) : x ∈ fv := by
  rw [fanTriangulate_eq] at hx
  rw [List.mem_flatten] at hx
  obtain ⟨l, hl, hxl⟩ := hx
  rw [List.mem_map] at hl
  obtain ⟨i, hi, rfl⟩ := hl
  rw [List.mem_range'_1] at hi
  have h3 : 3 ≤ fv.length := by omega
  have h0 : 0 < fv.length := by omega
  have hi1 : i < fv.length := by omega
  have hi2 : i + 1 < fv.length := by omega
  simp only [List.mem_cons, List.not_mem_nil, or_false] at hxl
  rcases hxl with rfl | rfl | rfl
  · rw [List.getD_eq_getElem fv d h0]; exact List.getElem_mem h0
  · rw [List.getD_eq_getElem fv d hi1]; exact List.getElem_mem hi1
  · rw [List.getD_eq_getElem fv d hi2]; exact List.getElem_mem hi2

theorem flatten_blocks_get {α : Type} (k : ℕ) :
    ∀ (L : List (List α)), (∀ l ∈ L, l.length = k) →
      ∀ t, t < L.length → (L.flatten.drop (k * t)).take k = L.getD t []
  | [], _, t, ht => by simp at ht
  | l :: L, h, 0, _ => by
      have hl : l.length = k := h l (by simp)
      simp only [List.flatten_cons, Nat.mul_zero, List.drop_zero, List.getD_cons_zero]
      rw [List.take_left' hl]
  | l :: L, h, t + 1, ht => by
      have hl : l.length = k := h l (by simp)
      have : k * (t + 1) = l.length + k * t := by rw [hl]; ring
      rw [List.getD_cons_succ, List.flatten_cons, this, List.drop_append]
      exact flatten_blocks_get k L (fun x hx => h x (by simp [hx])) t (by simpa using ht)

theorem flatten_replicate_eq {α : Type} (n k : ℕ) (a : α) :
    (List.replicate n (List.replicate k a)).flatten = List.replicate (n * k) a := by
  induction n with
  | zero => simp
  | succ m ih =>
      rw [List.replicate_succ, List.flatten_cons, ih, Nat.succ_mul, Nat.add_comm,
        ← List.replicate_add]

theorem pyRoundHalfEven_err (q : ℚ) : |(pyRoundHalfEven q : ℚ) - q| ≤ 1 / 2 := by
  have h1 : (⌊q⌋ : ℚ) ≤ q := Int.floor_le q
  have h2 : q < ⌊q⌋ + 1 := Int.lt_floor_add_one q
  unfold pyRoundHalfEven
  split_ifs with hf hg he
  · rw [abs_le]; constructor <;> [linarith; linarith]
  · rw [abs_le]; push_cast; constructor <;> [linarith; linarith]
  · rw [abs_le]; constructor <;> [linarith; linarith]
  · rw [abs_le]; push_cast; constructor <;> [linarith; linarith]

theorem pyRound_err (q : ℚ) : |pyRound 6 q - q| ≤ 1 / 2000000 := by
  have h := pyRoundHalfEven_err (q * 10 ^ 6)
  have heq : pyRound 6 q - q =
      ((pyRoundHalfEven (q * 10 ^ 6) : ℚ) - q * 10 ^ 6) / 10 ^ 6 := by
    unfold pyRound; ring
  rw [heq, abs_div]
  rw [show |(10 : ℚ) ^ 6| = 10 ^ 6 by norm_num]
  rw [div_le_iff₀ (by norm_num : (0:ℚ) < 10 ^ 6)]
  calc |(pyRoundHalfEven (q * 10 ^ 6) : ℚ) - q * 10 ^ 6| ≤ 1 / 2 := h
    _ ≤ 1 / 2000000 * 10 ^ 6 := by norm_num

theorem sum_map_pyRound_err : ∀ (l : List ℚ),
    |(l.map (pyRound 6)).sum - l.sum| ≤ (l.length : ℚ) * (1 / 2000000)
  | [] => by simp
  | x :: xs => by
      have h1 := pyRound_err x
      have h2 := sum_map_pyRound_err xs
      simp only [List.map_cons, List.sum_cons, List.length_cons]
      have heq : pyRound 6 x + (xs.map (pyRound 6)).sum - (x + xs.sum) =
          (pyRound 6 x - x) + ((xs.map (pyRound 6)).sum - xs.sum) := by ring
      rw [heq]
      calc |(pyRound 6 x - x) + ((xs.map (pyRound 6)).sum - xs.sum)|
          ≤ |pyRound 6 x - x| + |(xs.map (pyRound 6)).sum - xs.sum| := abs_add _ _
        _ ≤ 1 / 2000000 + (xs.length : ℚ) * (1 / 2000000) := by linarith
        _ = ((xs.length : ℚ) + 1) * (1 / 2000000) := by ring
        _ = ((xs.length + 1 : ℕ) : ℚ) * (1 / 2000000) := by push_cast; ring

-- ------------------------------------------------------------------
-- Bounds calculator lemmas and C9
-- ------------------------------------------------------------------

theorem boundsLoop_triples : ∀ (l : List (ℚ × ℚ × ℚ)) (s : MinMax × MinMax × MinMax),
    boundsLoop (flattenTriples l) s = l.foldl boundsFoldStep s
  | [], s => by simp [flattenTriples]; rw [boundsLoop]
  | t :: ts, s => by
      obtain ⟨m0, m1, m2⟩ := s
      have hft : flattenTriples (t :: ts) =
          t.1 :: t.2.1 :: t.2.2 :: flattenTriples ts := by
        simp [flattenTriples]
      rw [hft, boundsLoop, boundsLoop_triples ts]
      rfl

theorem foldl_fst (F : MinMax → ℚ → MinMax) :
    ∀ (l : List (ℚ × ℚ × ℚ)) (s : MinMax × MinMax × MinMax),
      (l.foldl (fun s t => (F s.1 t.1, F s.2.1 t.2.1, F s.2.2 t.2.2)) s).1 =
        (l.map (fun t => t.1)).foldl F s.1
  | [], _ => rfl
  | t :: ts, s => by
      simp only [List.foldl_cons, List.map_cons, foldl_fst F ts]

theorem foldl_snd1 (F : MinMax → ℚ → MinMax) :
    ∀ (l : List (ℚ × ℚ × ℚ)) (s : MinMax × MinMax × MinMax),
      (l.foldl (fun s t => (F s.1 t.1, F s.2.1 t.2.1, F s.2.2 t.2.2)) s).2.1 =
        (l.map (fun t => t.2.1)).foldl F s.2.1
  | [], _ => rfl
  | t :: ts, s => by
      simp only [List.foldl_cons, List.map_cons, foldl_snd1 F ts]

theorem foldl_snd2 (F : MinMax → ℚ → MinMax) :
    ∀ (l : List (ℚ × ℚ × ℚ)) (s : MinMax × MinMax × MinMax),
      (l.foldl (fun s t => (F s.1 t.1, F s.2.1 t.2.1, F s.2.2 t.2.2)) s).2.2 =
        (l.map (fun t => t.2.2)).foldl F s.2.2
  | [], _ => rfl
  | t :: ts, s => by
      simp only [List.foldl_cons, List.map_cons, foldl_snd2 F ts]

theorem foldl_mmUpdate_some : ∀ (vs : List ℚ) (a b : ℚ),
    (vs.foldl mmUpdate ⟨some a, some b⟩) =
      ⟨some (vs.foldl Min.min a), some (vs.foldl Max.max b)⟩
  | [], _, _ => rfl
  | v :: vs, a, b => by
      simp only [List.foldl_cons]
      rw [show mmUpdate ⟨some a, some b⟩ v = ⟨some (Min.min a v), some (Max.max b v)⟩
        from rfl]
      exact foldl_mmUpdate_some vs _ _

theorem foldl_mmUpdate_none (v : ℚ) (vs : List ℚ) :
    ((v :: vs).foldl mmUpdate ⟨none, none⟩) =
      ⟨some (vs.foldl Min.min v), some (vs.foldl Max.max v)⟩ := by
  simp only [List.foldl_cons]
  rw [show mmUpdate ⟨none, none⟩ v = ⟨some v, some v⟩ from rfl]
  exact foldl_mmUpdate_some vs v v

theorem boundsFold_char (t : ℚ × ℚ × ℚ) (ts : List (ℚ × ℚ × ℚ)) :
    (t :: ts).foldl boundsFoldStep (⟨none, none⟩, ⟨none, none⟩, ⟨none, none⟩) =
      (⟨some ((ts.map (fun u => u.1)).foldl Min.min t.1),
        some ((ts.map (fun u => u.1)).foldl Max.max t.1)⟩,
       ⟨some ((ts.map (fun u => u.2.1)).foldl Min.min t.2.1),
        some ((ts.map (fun u => u.2.1)).foldl Max.max t.2.1)⟩,
       ⟨some ((ts.map (fun u => u.2.2)).foldl Min.min t.2.2),
        some ((ts.map (fun u => u.2.2)).foldl Max.max t.2.2)⟩) := by
  have hstep : boundsFoldStep = fun (s : MinMax × MinMax × MinMax) (u : ℚ × ℚ × ℚ) =>
      (mmUpdate s.1 u.1, mmUpdate s.2.1 u.2.1, mmUpdate s.2.2 u.2.2) := rfl
  have h1 := foldl_fst mmUpdate (t :: ts)
    (⟨none, none⟩, ⟨none, none⟩, ⟨none, none⟩)
  have h2 := foldl_snd1 mmUpdate (t :: ts)
    (⟨none, none⟩, ⟨none, none⟩, ⟨none, none⟩)
  have h3 := foldl_snd2 mmUpdate (t :: ts)
    (⟨none, none⟩, ⟨none, none⟩, ⟨none, none⟩)
  rw [hstep]
  refine Prod.ext ?_ (Prod.ext ?_ ?_)
  · rw [h1, List.map_cons, foldl_mmUpdate_none]
  · rw [h2, List.map_cons, foldl_mmUpdate_none]
  · rw [h3, List.map_cons, foldl_mmUpdate_none]

/-- C9: the bounds calculator (`_compute_bounds`), on a flat position list of
length `3n`, returns `min` and `max` computed independently per component
over all position triples (each rounded to 6 digits) and
`center = (min + max) / 2` per component; on the positions
`[(0,0,0), (1,2,3), (-1,0,5)]` it returns `min [-1,0,0]`, `max [1,2,5]`,
`center [0,1,2.5]`, and on the empty list it returns all-zero vectors rather
than an error. -/
theorem compute_bounds_spec :
    (∀ (t : ℚ × ℚ × ℚ) (ts : List (ℚ × ℚ × ℚ)),
      compute_bounds (flattenTriples (t :: ts)) =
        { min := [pyRound 6 ((ts.map (fun u => u.1)).foldl Min.min t.1),
                  pyRound 6 ((ts.map (fun u => u.2.1)).foldl Min.min t.2.1),
                  pyRound 6 ((ts.map (fun u => u.2.2)).foldl Min.min t.2.2)],
          max := [pyRound 6 ((ts.map (fun u => u.1)).foldl Max.max t.1),
                  pyRound 6 ((ts.map (fun u => u.2.1)).foldl Max.max t.2.1),
                  pyRound 6 ((ts.map (fun u => u.2.2)).foldl Max.max t.2.2)],
          center := [pyRound 6 (((ts.map (fun u => u.1)).foldl Min.min t.1 +
                       (ts.map (fun u => u.1)).foldl Max.max t.1) / 2),
                     pyRound 6 (((ts.map (fun u => u.2.1)).foldl Min.min t.2.1 +
                       (ts.map (fun u => u.2.1)).foldl Max.max t.2.1) / 2),
                     pyRound 6 (((ts.map (fun u => u.2.2)).foldl Min.min t.2.2 +
                       (ts.map (fun u => u.2.2)).foldl Max.max t.2.2) / 2)] }) ∧
    compute_bounds [] = ⟨[0, 0, 0], [0, 0, 0], [0, 0, 0]⟩ ∧
    compute_bounds (flattenTriples [(0, 0, 0), (1, 2, 3), (-1, 0, 5)]) =
      ⟨[-1, 0, 0], [1, 2, 5], [0, 1, 5 / 2]⟩ := by
  refine ⟨?_, by rfl, by decide⟩
  intro t ts
  have hne : flattenTriples (t :: ts) ≠ [] := by simp [flattenTriples]
  unfold compute_bounds
  rw [if_neg hne, boundsLoop_triples, boundsFold_char]
  rfl

-- ------------------------------------------------------------------
-- C7: FBX PolygonVertexIndex decoding
-- ------------------------------------------------------------------

theorem buildPolygonsGo_append :
    ∀ (xs : List ℤ) (cur : List ℤ), (∀ x ∈ xs, 0 ≤ x) →
      ∀ (t : ℤ), t < 0 → ∀ (rest : List ℤ),
      buildPolygonsGo cur (xs ++ t :: rest) =
        ((cur ++ xs) ++ [-t - 1]) :: buildPolygonsGo [] rest
  | [], cur, _, t, ht, rest => by
      simp only [List.nil_append, List.append_nil]
      rw [buildPolygonsGo, if_pos ht]
  | x :: xs, cur, h, t, ht, rest => by
      have hx : ¬ x < 0 := by
        have := h x (by simp)
        omega
      simp only [List.cons_append]
      rw [buildPolygonsGo, if_neg hx,
        buildPolygonsGo_append xs (cur ++ [x]) (fun y hy => h y (by simp [hy])) t ht rest]
      simp

/-- C7: the FBX extractor decodes `PolygonVertexIndex` by treating each
negative stored index as the bitwise complement (`actual = ~stored =
-stored - 1`) of the final vertex index of a polygon loop, that complemented
index terminating the loop; in particular the stored sequence `[0, 1, -3]`
decodes to the single polygon `[0, 1, 2]`. -/
theorem fbx_polygon_complement_terminator :
    (∀ (xs : List ℤ), (∀ x ∈ xs, 0 ≤ x) → ∀ (t : ℤ), t < 0 → ∀ (rest : List ℤ),
      buildPolygons (xs ++ t :: rest) = (xs ++ [-t - 1]) :: buildPolygons rest) ∧
    buildPolygons [0, 1, -3] = [[0, 1, 2]] := by
  constructor
  · intro xs hxs t ht rest
    unfold buildPolygons
    rw [buildPolygonsGo_append xs [] hxs t ht rest]
    simp
  · decide

theorem fbx_polygon_complement_terminator_witness :
    buildPolygons ([0, 1] ++ (-3) :: []) =
      ([0, 1] ++ [-(-3) - 1]) :: buildPolygons [] :=
  fbx_polygon_complement_terminator.1 [0, 1] (by decide) (-3) (by decide) []

-- ------------------------------------------------------------------
-- C10: fan triangulation
-- ------------------------------------------------------------------

theorem fanTriangulate_block (d : ℤ) (fv : List ℤ) (t : ℕ)
    (ht : t < fv.length - 2) :
    ((fanTriangulate d fv).drop (3 * t)).take 3 =
      [fv.getD 0 d, fv.getD (t + 1) d, fv.getD (t + 2) d] := by
  rw [fanTriangulate_eq]
  have hlen : ∀ l ∈ (List.range' 1 (fv.length - 2)).map
      (fun i => [fv.getD 0 d, fv.getD i d, fv.getD (i + 1) d]), l.length = 3 := by
    intro l hl
    rw [List.mem_map] at hl
    obtain ⟨i, _, rfl⟩ := hl
    rfl
  have htL : t < ((List.range' 1 (fv.length - 2)).map
      (fun i => [fv.getD 0 d, fv.getD i d, fv.getD (i + 1) d])).length := by
    simpa using ht
  rw [flatten_blocks_get 3 _ hlen t htL]
  rw [List.getD_eq_getElem _ _ htL, List.getElem_map, List.getElem_range']
  simp [show 1 + t = t + 1 from by omega, show 1 + (t + 1) = t + 2 from by omega,
    show 1 + t + 1 = t + 2 from by omega]

/-- C10: every polygon with `k ≥ 3` vertices is fan-triangulated from its
first vertex into exactly `k - 2` triangles, the `t`-th triangle being
`(fv[0], fv[t+1], fv[t+2])` — the triangulation loop shared by `_parse_obj`
and `_parse_fbx`; in particular the single OBJ face line `f 1 2 3 4`
produces exactly the two triangles `(0,1,2)` and `(0,2,3)`. -/
theorem fan_triangulation_spec :
    (∀ (fv : List ℤ), 3 ≤ fv.length →
      (fanTriangulate 0 fv).length = 3 * (fv.length - 2) ∧
      ∀ t, t < fv.length - 2 →
        ((fanTriangulate 0 fv).drop (3 * t)).take 3 =
          [fv.getD 0 0, fv.getD (t + 1) 0, fv.getD (t + 2) 0]) ∧
    (parse_obj objSquare).map (fun g => (g.indices, g.face_count, g.vertex_count)) =
      Except.ok ([0, 1, 2, 0, 2, 3], 2, 4) := by
  constructor
  · intro fv _
    exact ⟨fanTriangulate_length 0 fv, fun t ht => fanTriangulate_block 0 fv t ht⟩
  · decide

theorem fan_triangulation_spec_witness :
    (fanTriangulate 0 ([5, 6, 7, 8] : List ℤ)).length =
      3 * (([5, 6, 7, 8] : List ℤ).length - 2) ∧
    ∀ t, t < ([5, 6, 7, 8] : List ℤ).length - 2 →
      ((fanTriangulate 0 ([5, 6, 7, 8] : List ℤ)).drop (3 * t)).take 3 =
        [([5, 6, 7, 8] : List ℤ).getD 0 0, ([5, 6, 7, 8] : List ℤ).getD (t + 1) 0,
         ([5, 6, 7, 8] : List ℤ).getD (t + 2) 0] :=
  fan_triangulation_spec.1 ([5, 6, 7, 8] : List ℤ) (by decide)

-- ------------------------------------------------------------------
-- C8: zero-vertex inputs decode successfully
-- ------------------------------------------------------------------

/-- C8: decoding a valid input with zero vertices yields a successful result
with `vertex_count == 0` and all-zero bounds, not an error.  Concretely:
(1) the minimal GLB buffer `c8Glb` (valid 12-byte header, one JSON chunk of
type 0x4E4F534A containing the text of `c8Json`, no BIN chunk) scans to
exactly that JSON payload with the BIN chunk defaulting to `b""` instead of
erroring; (2) extracting its parsed JSON (`c8Gltf`, whose `meshes` is empty)
over that empty binary chunk gives `vertex_count = 0`, all-zero bounds and
no warnings; and (3) an FBX tree whose mesh geometry holds zero vertices
parses to the same empty geometry. -/
theorem zero_vertex_inputs_succeed :
    parse_glb c8Glb = Except.ok (c8JsonBytes, []) ∧
    ((extract_gltf_data c8Gltf [[]]).vertex_count = 0 ∧
     (extract_gltf_data c8Gltf [[]]).bounds = ⟨[0, 0, 0], [0, 0, 0], [0, 0, 0]⟩ ∧
     (extract_gltf_data c8Gltf [[]]).warnings = [] ∧
     (extract_gltf_data c8Gltf [[]]).face_count = 0) ∧
    (parse_fbx_geometry fbxEmptyTree).map
        (fun g => (g.vertex_count, g.bounds, g.warnings)) =
      Except.ok (0, ⟨[0, 0, 0], [0, 0, 0], [0, 0, 0]⟩, []) := by
  refine ⟨by decide, ⟨rfl, rfl, rfl, rfl⟩, by decide⟩

-- ------------------------------------------------------------------
-- OBJ parser invariants (C1/C2/C3, OBJ side)
-- ------------------------------------------------------------------

theorem vmapFind_mem (m : List ((ℤ × ℤ × ℤ) × ℕ)) (k : ℤ × ℤ × ℤ) (v : ℕ)
    (h : vmapFind m k = some v) : ∃ kv ∈ m, kv.2 = v := by
  unfold vmapFind at h
  rcases ho : m.find? (fun e => e.1 == k) with _ | kv
  · rw [ho] at h; simp at h
  · rw [ho] at h
    simp at h
    exact ⟨kv, List.mem_of_find?_eq_some ho, h⟩

theorem objFaceVertCore_inv (s : ObjState) (fv : List ℤ) (key : ℤ × ℤ × ℤ)
    (hs : ObjInv s) (hfv : ∀ x ∈ fv, 0 ≤ x ∧ x < (objCnt s : ℤ)) :
    ObjInv (objFaceVertCore s fv key).1 ∧
    (∀ x ∈ (objFaceVertCore s fv key).2.1,
      0 ≤ x ∧ x < (objCnt (objFaceVertCore s fv key).1 : ℤ)) ∧
    objCnt s ≤ objCnt (objFaceVertCore s fv key).1 ∧
    (objFaceVertCore s fv key).1.out_indices = s.out_indices ∧
    (objFaceVertCore s fv key).1.face_count = s.face_count ∧
    (s.truncated = true → (objFaceVertCore s fv key).1.truncated = true) := by
  unfold objFaceVertCore
  rcases hfind : vmapFind s.vmap key with _ | existing
  · simp only []
    by_cases hcap : MAX_VERTICES ≤ s.out_positions.length / 3
    · rw [if_pos hcap]
      by_cases htr : s.truncated = true
      · rw [if_pos htr]
        exact ⟨hs, hfv, le_refl _, rfl, rfl, fun _ => htr⟩
      · rw [if_neg htr]
        have hlen : s.out_positions.length = 3 * MAX_VERTICES := by
          have h1 := hs.pos3
          have h2 := hs.posLe
          omega
        refine ⟨⟨hs.pos3, hs.posLe, fun _ => hlen, ?_, hs.vmapLt, hs.idxLt, hs.idx3⟩,
          hfv, le_refl _, rfl, rfl, fun _ => rfl⟩
        have hw := hs.warnEq
        rw [if_neg htr] at hw
        simp [hw]
    · rw [if_neg hcap]
      rcases hgp : s.positions.getD key.1.toNat (0, 0, 0) with ⟨a, b, c⟩
      rcases hgn : s.normals.getD key.2.2.toNat (0, 0, 0) with ⟨na, nb, nc⟩
      rcases hgu : s.uvs.getD key.2.1.toNat (0, 0) with ⟨ua, ub⟩
      simp only [hgp, hgn, hgu]
      have hplen : (if 0 ≤ key.1 ∧ key.1 < (s.positions.length : ℤ) then
          s.out_positions ++ [a, b, c] else s.out_positions ++ [0, 0, 0]).length =
          s.out_positions.length + 3 := by
        split <;> simp
      constructor
      · constructor
        · simp only [hplen]; have := hs.pos3; omega
        · simp only [hplen]
          have h1 := hs.pos3
          have h2 : s.out_positions.length / 3 < MAX_VERTICES := by omega
          omega
        · intro h
          exfalso
          have := hs.truncEq h
          omega
        · exact hs.warnEq
        · intro kv hkv
          simp only [List.mem_cons] at hkv
          unfold objCnt
          simp only [hplen]
          rcases hkv with rfl | hkv
          · show s.out_positions.length / 3 < (s.out_positions.length + 3) / 3
            omega
          · have := hs.vmapLt kv hkv
            unfold objCnt at this
            omega
        · intro i hi
          have := hs.idxLt i hi
          unfold objCnt at this ⊢
          simp only [hplen]
          constructor
          · exact this.1
          · have h2 : s.out_positions.length / 3 ≤ (s.out_positions.length + 3) / 3 := by
              omega
            have := this.2
            have hcast : ((s.out_positions.length / 3 : ℕ) : ℤ) ≤
                (((s.out_positions.length + 3) / 3 : ℕ) : ℤ) := by exact_mod_cast h2
            omega
        · exact hs.idx3
      · constructor
        · intro x hx
          unfold objCnt
          simp only [hplen]
          rw [List.mem_append] at hx
          rcases hx with hx | hx
          · have := hfv x hx
            unfold objCnt at this
            have h2 : s.out_positions.length / 3 ≤ (s.out_positions.length + 3) / 3 := by
              omega
            have hcast : ((s.out_positions.length / 3 : ℕ) : ℤ) ≤
                (((s.out_positions.length + 3) / 3 : ℕ) : ℤ) := by exact_mod_cast h2
            exact ⟨this.1, by omega⟩
          · simp at hx
            subst hx
            have h1 := hs.pos3
            have h2 : s.out_positions.length / 3 < (s.out_positions.length + 3) / 3 := by
              omega
            constructor
            · positivity
            · exact_mod_cast h2
        · refine ⟨?_, trivial, trivial, fun h => h⟩
          unfold objCnt
          simp only [hplen]
          omega
  · simp only []
    refine ⟨hs, ?_, le_refl _, trivial, trivial, fun h => h⟩
    intro x hx
    rw [List.mem_append] at hx
    rcases hx with hx | hx
    · exact hfv x hx
    · simp at hx
      subst hx
      obtain ⟨kv, hkvm, hkv2⟩ := vmapFind_mem _ _ _ hfind
      have := hs.vmapLt kv hkvm
      rw [hkv2] at this
      exact ⟨by positivity, by exact_mod_cast this⟩

theorem exceptBind_ok {ε α β : Type} (e : Except ε α) (f : α → Except ε β) (b : β)
    (h : e >>= f = Except.ok b) : ∃ a, e = Except.ok a ∧ f a = Except.ok b := by
  cases e with
  | ok a => exact ⟨a, rfl, h⟩
  | error msg =>
      exfalso
      have : (Except.error msg >>= f) = (Except.error msg : Except ε β) := rfl
      rw [this] at h
      exact Except.noConfusion h

theorem objFaceVert_ok (s : ObjState) (fv : List ℤ) (vert : List Char)
    (r : ObjState × List ℤ × Bool) (h : objFaceVert s fv vert = Except.ok r) :
    ∃ key, r = objFaceVertCore s fv key := by
  unfold objFaceVert at h
  obtain ⟨a1, _, h⟩ := exceptBind_ok _ _ _ h
  obtain ⟨a2, _, h⟩ := exceptBind_ok _ _ _ h
  obtain ⟨a3, _, h⟩ := exceptBind_ok _ _ _ h
  refine ⟨(a1, a2, a3), ?_⟩
  injection h with h
  exact h.symm

theorem objFaceVerts_inv : ∀ (verts : List (List Char)) (s : ObjState) (fv : List ℤ),
    ObjInv s → (∀ x ∈ fv, 0 ≤ x ∧ x < (objCnt s : ℤ)) →
    ∀ s' fv' brk, objFaceVerts s fv verts = Except.ok (s', fv', brk) →
      ObjInv s' ∧ (∀ x ∈ fv', 0 ≤ x ∧ x < (objCnt s' : ℤ)) ∧
      s'.out_indices = s.out_indices ∧ s'.face_count = s.face_count ∧
      (s.truncated = true → s'.truncated = true)
  | [], s, fv, hs, hfv, s', fv', brk, h => by
      unfold objFaceVerts at h
      injection h with h
      obtain ⟨h1, h2, h3⟩ : s = s' ∧ fv = fv' ∧ false = brk := by
        simpa [Prod.ext_iff] using h
      subst h1; subst h2
      exact ⟨hs, hfv, rfl, rfl, fun hh => hh⟩
  | v :: rest, s, fv, hs, hfv, s', fv', brk, h => by
      unfold objFaceVerts at h
      obtain ⟨r, h1, h2⟩ := exceptBind_ok _ _ _ h
      obtain ⟨key, rfl⟩ := objFaceVert_ok s fv v _ h1
      obtain ⟨hi1, hi2, hi3, hi4, hi5, hi6⟩ := objFaceVertCore_inv s fv key hs hfv
      by_cases hb : (objFaceVertCore s fv key).2.2 = true
      · rw [if_pos hb] at h2
        injection h2 with h2
        rw [show (objFaceVertCore s fv key).1 = s' from congrArg Prod.fst h2] at hi1 hi2 hi4 hi5 hi6
        have hfveq : (objFaceVertCore s fv key).2.1 = fv' :=
          congrArg Prod.fst (congrArg Prod.snd h2)
        rw [hfveq] at hi2
        exact ⟨hi1, hi2, hi4, hi5, hi6⟩
      · rw [if_neg hb] at h2
        obtain ⟨hj1, hj2, hj3, hj4, hj5⟩ :=
          objFaceVerts_inv rest (objFaceVertCore s fv key).1
            (objFaceVertCore s fv key).2.1 hi1 hi2 s' fv' brk h2
        exact ⟨hj1, hj2, hj3.trans hi4, hj4.trans hi5, fun ht => hj5 (hi6 ht)⟩

theorem objLine_inv (s : ObjState) (line : List Char) (hs : ObjInv s) :
    ∀ s', objLine s line = Except.ok s' → ObjInv s' := by
  intro s' h
  simp only [objLine] at h
  split at h
  · injection h with h; subst h; exact hs
  · split at h
    · injection h with h; subst h; exact hs
    · rename_i tag rest heq
      split_ifs at h with h1 h2 h3 h4
      · obtain ⟨a, _, h⟩ := exceptBind_ok _ _ _ h
        obtain ⟨b, _, h⟩ := exceptBind_ok _ _ _ h
        obtain ⟨c, _, h⟩ := exceptBind_ok _ _ _ h
        injection h with h; subst h
        exact ⟨hs.pos3, hs.posLe, hs.truncEq, hs.warnEq, hs.vmapLt, hs.idxLt, hs.idx3⟩
      · obtain ⟨a, _, h⟩ := exceptBind_ok _ _ _ h
        obtain ⟨b, _, h⟩ := exceptBind_ok _ _ _ h
        obtain ⟨c, _, h⟩ := exceptBind_ok _ _ _ h
        injection h with h; subst h
        exact ⟨hs.pos3, hs.posLe, hs.truncEq, hs.warnEq, hs.vmapLt, hs.idxLt, hs.idx3⟩
      · obtain ⟨a, _, h⟩ := exceptBind_ok _ _ _ h
        obtain ⟨b, _, h⟩ := exceptBind_ok _ _ _ h
        injection h with h; subst h
        exact ⟨hs.pos3, hs.posLe, hs.truncEq, hs.warnEq, hs.vmapLt, hs.idxLt, hs.idx3⟩
      · obtain ⟨r, hr, h⟩ := exceptBind_ok _ _ _ h
        obtain ⟨hj1, hj2, hj3, hj4, hj5⟩ :=
          objFaceVerts_inv rest s [] hs (by intro x hx; simp at hx) r.1 r.2.1 r.2.2
            (by rw [← hr])
        split at h
        · injection h with h; subst h; exact hj1
        · injection h with h; subst h
          refine ⟨hj1.pos3, hj1.posLe, hj1.truncEq, hj1.warnEq, hj1.vmapLt, ?_, ?_⟩
          · intro i hi
            rw [List.mem_append] at hi
            rcases hi with hi | hi
            · exact hj1.idxLt i hi
            · have hmem := mem_fanTriangulate 0 r.2.1 i hi
              exact hj2 i hmem
          · rw [List.length_append, fanTriangulate_length]
            have := hj1.idx3
            omega
      · injection h with h; subst h; exact hs

theorem objInit_inv : ObjInv objInit := by
  constructor <;> simp [objInit, objCnt]

theorem parse_obj_inv : ∀ (lines : List (List Char)) (s : ObjState), ObjInv s →
    ∀ s', List.foldlM objLine s lines = Except.ok s' → ObjInv s'
  | [], s, hs, s', h => by
      simp only [List.foldlM] at h
      rw [show (pure s : Except String ObjState) = Except.ok s from rfl] at h
      injection h with h
      rw [← h]; exact hs
  | l :: ls, s, hs, s', h => by
      rw [List.foldlM_cons] at h
      obtain ⟨s1, h1, h2⟩ := exceptBind_ok _ _ _ h
      exact parse_obj_inv ls s1 (objLine_inv s l hs s1 h1) s' h2

theorem parse_obj_ok_inv (text : String) (g : ObjGeo)
    (h : parse_obj text = Except.ok g) :
    ∃ s, ObjInv s ∧ g.vertex_count = s.out_positions.length / 3 ∧
      g.warnings = s.warnings ∧ g.indices = s.out_indices := by
  unfold parse_obj at h
  obtain ⟨s, h1, h2⟩ := exceptBind_ok _ _ _ h
  refine ⟨s, parse_obj_inv _ objInit objInit_inv s h1, ?_⟩
  injection h2 with h2
  subst h2
  exact ⟨rfl, rfl, rfl⟩

/-- C1 (amended): for every decoded OBJ file the output `vertex_count` never
exceeds `_MAX_VERTICES` (100000); when a truncation warning was recorded the
count equals the ceiling exactly, and the parse still returns a result
rather than raising.  (For FBX the threshold caps only the source position
triples read per geometry; the expanded per-polygon-vertex output count can
exceed it — see the accompanying counterexample.) -/
theorem obj_vertex_cap (text : String) (g : ObjGeo)
    (h : parse_obj text = Except.ok g) :
    g.vertex_count ≤ MAX_VERTICES ∧
    (g.warnings ≠ [] → g.vertex_count = MAX_VERTICES) := by
  obtain ⟨s, hs, hvc, hw, _⟩ := parse_obj_ok_inv text g h
  constructor
  · rw [hvc]
    have := hs.posLe
    unfold MAX_VERTICES at *
    omega
  · intro hne
    rw [hw] at hne
    have hwq := hs.warnEq
    by_cases ht : s.truncated = true
    · have hlen := hs.truncEq ht
      rw [hvc, hlen]
      unfold MAX_VERTICES
      omega
    · rw [if_neg ht] at hwq
      exact absurd hwq hne

theorem obj_vertex_cap_witness :
    gObjTri.vertex_count ≤ MAX_VERTICES ∧
    (gObjTri.warnings ≠ [] → gObjTri.vertex_count = MAX_VERTICES) :=
  obj_vertex_cap objTri gObjTri (by decide)

-- ------------------------------------------------------------------
-- FBX geometry loop invariants
-- ------------------------------------------------------------------

theorem pySlice_length_exact {α : Type} (l : List α) (a b : ℤ)
    (ha : 0 ≤ a) (hab : a ≤ b) (hb : b ≤ (l.length : ℤ)) :
    (pySlice l a b).length = (b - a).toNat := by
  unfold pySlice pySliceIdx
  rw [if_neg (by omega), if_neg (by omega)]
  simp only [List.length_drop, List.length_take]
  omega

theorem expandVert_fields (voff : ℕ) (pos : List ℚ) (nl ul : FbxLayer)
    (m : MeshAcc) (v : ℤ) (hv : 0 ≤ v) :
    (expandVert voff pos nl ul m v).1.mpos.length = m.mpos.length + 3 ∧
    (expandVert voff pos nl ul m v).1.ovi = m.ovi + 1 ∧
    (expandVert voff pos nl ul m v).1.mindices = m.mindices ∧
    (expandVert voff pos nl ul m v).1.mfc = m.mfc ∧
    (expandVert voff pos nl ul m v).2 = m.ovi := by
  unfold expandVert
  refine ⟨?_, rfl, rfl, rfl, rfl⟩
  by_cases hg : v * 3 + 2 < (pos.length : ℤ)
  · rw [if_pos hg]
    rw [List.length_append, pySlice_length_exact pos (v * 3) (v * 3 + 3)
      (by omega) (by omega) (by omega)]
    omega
  · rw [if_neg hg]
    simp

theorem expandVertsFold (voff : ℕ) (pos : List ℚ) (nl ul : FbxLayer) :
    ∀ (poly : List ℤ) (m : MeshAcc) (acc : List ℕ), (∀ v ∈ poly, 0 ≤ v) →
    ((poly.foldl (fun (a : MeshAcc × List ℕ) v =>
        let t := expandVert voff pos nl ul a.1 v
        (t.1, a.2 ++ [t.2])) (m, acc)).1.mpos.length =
      m.mpos.length + 3 * poly.length) ∧
    ((poly.foldl (fun (a : MeshAcc × List ℕ) v =>
        let t := expandVert voff pos nl ul a.1 v
        (t.1, a.2 ++ [t.2])) (m, acc)).1.ovi = m.ovi + poly.length) ∧
    ((poly.foldl (fun (a : MeshAcc × List ℕ) v =>
        let t := expandVert voff pos nl ul a.1 v
        (t.1, a.2 ++ [t.2])) (m, acc)).1.mindices = m.mindices) ∧
    ((poly.foldl (fun (a : MeshAcc × List ℕ) v =>
        let t := expandVert voff pos nl ul a.1 v
        (t.1, a.2 ++ [t.2])) (m, acc)).1.mfc = m.mfc) ∧
    ((poly.foldl (fun (a : MeshAcc × List ℕ) v =>
        let t := expandVert voff pos nl ul a.1 v
        (t.1, a.2 ++ [t.2])) (m, acc)).2 = acc ++ List.range' m.ovi poly.length)
  | [], m, acc, _ => by simp
  | v :: poly, m, acc, h => by
      have hv : 0 ≤ v := h v (by simp)
      obtain ⟨e1, e2, e3, e4, e5⟩ := expandVert_fields voff pos nl ul m v hv
      simp only [List.foldl_cons]
      obtain ⟨f1, f2, f3, f4, f5⟩ :=
        expandVertsFold voff pos nl ul poly (expandVert voff pos nl ul m v).1
          (acc ++ [(expandVert voff pos nl ul m v).2])
          (fun x hx => h x (by simp [hx]))
      refine ⟨?_, ?_, ?_, ?_, ?_⟩
      · rw [f1, e1]; simp [List.length_cons]; ring
      · rw [f2, e2]; simp [List.length_cons]; omega
      · rw [f3, e3]
      · rw [f4, e4]
      · rw [f5, e5, e2, List.append_assoc]
        rfl

theorem expandPoly_step (voff : ℕ) (pos : List ℚ) (nl ul : FbxLayer)
    (m : MeshAcc) (poly : List ℤ) (hp : ∀ v ∈ poly, 0 ≤ v)
    (him : ∀ i ∈ m.mindices, i < m.ovi)
    (hpos : m.mpos.length = 3 * m.ovi) (h3 : m.mindices.length % 3 = 0) :
    (∀ i ∈ (expandPoly voff pos nl ul m poly).mindices,
      i < (expandPoly voff pos nl ul m poly).ovi) ∧
    (expandPoly voff pos nl ul m poly).mpos.length =
      3 * (expandPoly voff pos nl ul m poly).ovi ∧
    (expandPoly voff pos nl ul m poly).mindices.length % 3 = 0 ∧
    (expandPoly voff pos nl ul m poly).ovi = m.ovi + poly.length := by
  unfold expandPoly
  obtain ⟨f1, f2, f3, f4, f5⟩ := expandVertsFold voff pos nl ul poly m [] hp
  simp only [f1, f2, f3, f4, f5, List.nil_append]
  refine ⟨?_, by omega, ?_, by trivial⟩
  · intro i hi
    rw [List.mem_append] at hi
    rcases hi with hi | hi
    · have := him i hi
      omega
    · have := mem_fanTriangulate 0 _ i hi
      rw [List.mem_range'_1] at this
      have hlr : (List.range' m.ovi poly.length).length = poly.length :=
        List.length_range' _ _ _
      omega
  · rw [List.length_append, fanTriangulate_length]
    have hlr : (List.range' m.ovi poly.length).length = poly.length := by
      exact List.length_range' _ _ _
    omega

theorem expandPolysFold (voff : ℕ) (pos : List ℚ) (nl ul : FbxLayer) :
    ∀ (polys : List (List ℤ)) (m : MeshAcc),
    (∀ p ∈ polys, ∀ v ∈ p, 0 ≤ v) →
    (∀ i ∈ m.mindices, i < m.ovi) →
    m.mpos.length = 3 * m.ovi → m.mindices.length % 3 = 0 →
    (∀ i ∈ (polys.foldl (expandPoly voff pos nl ul) m).mindices,
      i < (polys.foldl (expandPoly voff pos nl ul) m).ovi) ∧
    (polys.foldl (expandPoly voff pos nl ul) m).mpos.length =
      3 * (polys.foldl (expandPoly voff pos nl ul) m).ovi ∧
    (polys.foldl (expandPoly voff pos nl ul) m).mindices.length % 3 = 0 ∧
    (polys.foldl (expandPoly voff pos nl ul) m).ovi =
      m.ovi + (polys.map List.length).sum
  | [], m, _, him, hpos, h3 => by
      simpa using ⟨him, hpos, h3⟩
  | p :: polys, m, h, him, hpos, h3 => by
      obtain ⟨g1, g2, g3, g4⟩ :=
        expandPoly_step voff pos nl ul m p (h p (by simp)) him hpos h3
      simp only [List.foldl_cons]
      obtain ⟨k1, k2, k3, k4⟩ :=
        expandPolysFold voff pos nl ul polys (expandPoly voff pos nl ul m p)
          (fun q hq => h q (by simp [hq])) g1 g2 g3
      refine ⟨k1, k2, k3, ?_⟩
      rw [k4, g4]
      simp only [List.map_cons, List.sum_cons]
      omega

theorem expandPolys_spec (voff : ℕ) (pos : List ℚ) (nl ul : FbxLayer)
    (polys : List (List ℤ)) (h : ∀ p ∈ polys, ∀ v ∈ p, 0 ≤ v) :
    (∀ i ∈ (expandPolys voff pos nl ul polys).mindices,
      i < (expandPolys voff pos nl ul polys).ovi) ∧
    (expandPolys voff pos nl ul polys).mpos.length =
      3 * (expandPolys voff pos nl ul polys).ovi ∧
    (expandPolys voff pos nl ul polys).mindices.length % 3 = 0 ∧
    (expandPolys voff pos nl ul polys).ovi = (polys.map List.length).sum := by
  unfold expandPolys
  obtain ⟨k1, k2, k3, k4⟩ := expandPolysFold voff pos nl ul polys
    ⟨0, [], [], [], [], 0, 0, []⟩ h (by intro i hi; simp at hi) rfl rfl
  exact ⟨k1, k2, k3, by simpa using k4⟩

theorem buildPolygonsGo_nonneg : ∀ (l cur : List ℤ), (∀ x ∈ cur, 0 ≤ x) →
    ∀ p ∈ buildPolygonsGo cur l, ∀ v ∈ p, 0 ≤ v
  | [], cur, hc => by simp [buildPolygonsGo]
  | idx :: rest, cur, hc => by
      rw [buildPolygonsGo]
      by_cases hi : idx < 0
      · rw [if_pos hi]
        intro p hp v hv
        rcases List.mem_cons.mp hp with rfl | hp
        · rcases List.mem_append.mp hv with hv | hv
          · exact hc v hv
          · simp at hv; omega
        · exact buildPolygonsGo_nonneg rest [] (by simp) p hp v hv
      · rw [if_neg hi]
        refine buildPolygonsGo_nonneg rest (cur ++ [idx]) ?_
        intro x hx
        rcases List.mem_append.mp hx with hx | hx
        · exact hc x hx
        · simp at hx; omega

theorem processGeom_inv (acc : FbxAcc) (geom : FbxNode) (h : FbxInv acc) :
    FbxInv (processGeom acc geom) := by
  unfold processGeom
  split
  · exact h
  · split
    · exact h
    · rename_i vert_node _
      split
      case _ rawVerts0 _ =>
        by_cases htr : acc.truncated = true
        · rw [if_pos htr]; exact h
        · rw [if_neg htr]
          have hwnil : acc.warnings = [] := by
            have := h.warnEq
            rwa [if_neg htr] at this
          dsimp only
          split_ifs with hcap hov
          · refine ⟨h.posOff, h.idxLt, h.idx3, ?_⟩
            simp [hwnil]
          · split
            · exact ⟨h.posOff, h.idxLt, h.idx3, by simp [hwnil]⟩
            · rename_i pvi_node _
              split
              case _ rawIdxVals _ =>
                have hnn : ∀ p ∈ buildPolygons (rawIdxVals.map pyIntOf), ∀ v ∈ p, 0 ≤ v :=
                  buildPolygonsGo_nonneg _ [] (by simp)
                obtain ⟨k1, k2, k3, k4⟩ := expandPolys_spec acc.vertex_offset _ _ _ _ hnn
                constructor
                · simp only [List.length_append]
                  rw [h.posOff, k2]
                  ring
                · intro i hi
                  simp only [List.mem_append] at hi
                  rcases hi with hi | hi
                  · have := h.idxLt i hi
                    simp only []
                    omega
                  · rw [List.mem_map] at hi
                    obtain ⟨j, hj, rfl⟩ := hi
                    have := k1 j hj
                    simp only []
                    omega
                · simp only [List.length_append, List.length_map]
                  have h1 := h.idx3
                  have h2 := k3
                  omega
                · simp [hwnil]
              case _ =>
                exact ⟨h.posOff, h.idxLt, h.idx3, by simp [hwnil]⟩
          · split
            · exact ⟨h.posOff, h.idxLt, h.idx3, h.warnEq⟩
            · rename_i pvi_node _
              split
              case _ rawIdxVals _ =>
                have hnn : ∀ p ∈ buildPolygons (rawIdxVals.map pyIntOf), ∀ v ∈ p, 0 ≤ v :=
                  buildPolygonsGo_nonneg _ [] (by simp)
                obtain ⟨k1, k2, k3, k4⟩ := expandPolys_spec acc.vertex_offset _ _ _ _ hnn
                constructor
                · simp only [List.length_append]
                  rw [h.posOff, k2]
                  ring
                · intro i hi
                  simp only [List.mem_append] at hi
                  rcases hi with hi | hi
                  · have := h.idxLt i hi
                    simp only []
                    omega
                  · rw [List.mem_map] at hi
                    obtain ⟨j, hj, rfl⟩ := hi
                    have := k1 j hj
                    simp only []
                    omega
                · simp only [List.length_append, List.length_map]
                  have h1 := h.idx3
                  have h2 := k3
                  omega
                · exact h.warnEq
              case _ =>
                exact ⟨h.posOff, h.idxLt, h.idx3, h.warnEq⟩
      case _ =>
        exact h

theorem foldl_processGeom_inv : ∀ (l : List FbxNode) (acc : FbxAcc),
    FbxInv acc → FbxInv (l.foldl processGeom acc)
  | [], _, h => h
  | g :: gs, acc, h => by
      rw [List.foldl_cons]
      exact foldl_processGeom_inv gs _ (processGeom_inv acc g h)

theorem parse_fbx_ok_inv (nodes : FbxDict) (g : FbxGeo)
    (h : parse_fbx_geometry nodes = Except.ok g) :
    ∃ acc, FbxInv acc ∧ g.vertex_count = acc.all_positions.length / 3 ∧
      g.indices = acc.all_indices ∧ g.warnings = acc.warnings := by
  unfold parse_fbx_geometry at h
  split at h
  · exact Except.noConfusion h
  · dsimp only at h
    split at h
    · exact Except.noConfusion h
    · rename_i objects_node _ _
      refine ⟨_, foldl_processGeom_inv
        (fbxEnsureList objects_node.children "Geometry")
        ⟨[], [], [], [], [], 0, 0, false, []⟩
        ⟨rfl, by intro i hi; simp at hi, rfl, rfl⟩, ?_⟩
      injection h with h
      subst h
      exact ⟨rfl, rfl, rfl⟩

-- ------------------------------------------------------------------
-- glTF primitive-loop lemmas (C2/C3, glTF side)
-- ------------------------------------------------------------------

theorem posData_eq (A : List GAccessor) (BV : List GBufferView)
    (bufs : List (List ℕ)) (p : GPrimitive) (i : ℕ)
    (h : attrGet p.attributes "POSITION" = some i) :
    posData A BV bufs p = read_accessor A BV bufs i := by
  unfold posData
  rw [h]

theorem gltfCompSize_pos (c : ℕ) : 1 ≤ gltfCompSize c := by
  unfold gltfCompSize
  split <;> omega

theorem range_map_const {α : Type} (n : ℕ) (f : ℕ → α) (a : α)
    (h : ∀ j, f j = a) : (List.range n).map f = List.replicate n a := by
  induction n with
  | zero => simp
  | succ m ih =>
      rw [List.range_succ, List.map_append, ih, List.map_singleton, h,
        List.replicate_succ']

/-- Over a buffer with zero bytes every component read falls past the end
and yields the `values.append(0)` default, so the accessor decodes to
`count * n_components` zeros. -/
theorem read_accessor_empty_buf (A : List GAccessor) (BV : List GBufferView)
    (bufs : List (List ℕ)) (i : ℕ) (acc : GAccessor) (bv : GBufferView)
    (h1 : A.get? i = some acc) (h2 : BV.get? (acc.bufferView.getD 0) = some bv)
    (h3 : bufs.get? (bv.buffer.getD 0) = some []) :
    read_accessor A BV bufs i =
      List.replicate (acc.count.getD 0 * gltfTypeSize (acc.type.getD "SCALAR"))
        (0 : ℚ) := by
  unfold read_accessor
  rw [h1]
  dsimp only
  rw [h2]
  dsimp only
  rw [h3]
  dsimp only
  rw [range_map_const _ _
    (List.replicate (gltfTypeSize (acc.type.getD "SCALAR")) (0 : ℚ)) ?_]
  · exact flatten_replicate_eq _ _ _
  · intro j
    rw [range_map_const _ _ (0 : ℚ)]
    intro k
    rw [if_neg]
    have := gltfCompSize_pos (acc.componentType.getD 5126)
    simp only [List.length_nil]
    omega

/-- When the vertex budget is already exhausted the primitive loop records a
truncation warning and takes the `break`. -/
theorem processPrim_break (A : List GAccessor) (BV : List GBufferView)
    (bufs : List (List ℕ)) (st : GltfAcc) (p : GPrimitive)
    (hover : MAX_VERTICES < st.vertex_offset + (posData A BV bufs p).length / 3)
    (hrem : (MAX_VERTICES : ℤ) - st.vertex_offset ≤ 0) :
    processPrim A BV bufs st p =
      ({ st with warnings := st.warnings ++ [truncWarning] }, true) := by
  unfold processPrim
  dsimp only
  rw [if_pos]
  exact ⟨hover, hrem⟩

/-- While budget remains, a primitive appends one warning iff it overflows
the ceiling and advances `vertex_offset` by the (possibly capped) vertex
count, without breaking. -/
theorem processPrim_no_break (A : List GAccessor) (BV : List GBufferView)
    (bufs : List (List ℕ)) (st : GltfAcc) (p : GPrimitive)
    (hrem : ¬ ((MAX_VERTICES : ℤ) - st.vertex_offset ≤ 0)) :
    (processPrim A BV bufs st p).2 = false ∧
    (processPrim A BV bufs st p).1.warnings =
      (if MAX_VERTICES < st.vertex_offset + (posData A BV bufs p).length / 3
       then st.warnings ++ [truncWarning] else st.warnings) ∧
    (processPrim A BV bufs st p).1.vertex_offset =
      st.vertex_offset +
        (if MAX_VERTICES < st.vertex_offset + (posData A BV bufs p).length / 3
         then ((MAX_VERTICES : ℤ) - st.vertex_offset).toNat
         else (posData A BV bufs p).length / 3) := by
  unfold processPrim
  dsimp only
  rw [if_neg (fun hc => hrem hc.2)]
  split <;> exact ⟨rfl, rfl, rfl⟩

theorem processPrims_cons (A : List GAccessor) (BV : List GBufferView)
    (bufs : List (List ℕ)) (st : GltfAcc) (p : GPrimitive)
    (rest : List GPrimitive) :
    processPrims A BV bufs st (p :: rest) =
      if (processPrim A BV bufs st p).2 then (processPrim A BV bufs st p).1
      else processPrims A BV bufs (processPrim A BV bufs st p).1 rest := rfl

theorem extract_gltf_data_warnings (g : Gltf) (buffers : List (List ℕ)) :
    (extract_gltf_data g buffers).warnings =
      (g.meshes.foldl (fun st m =>
        processPrims g.accessors g.bufferViews buffers st m.primitives)
        gltfInit).warnings := rfl

/-- C2 (amended, OBJ/FBX side): the OBJ and FBX decoders record at most one
truncation warning per file — the returned `warnings` list is either empty
or exactly the single truncation string.  (The glTF extractor instead
appends one warning per primitive that reaches the ceiling — see the
accompanying counterexample.) -/
theorem obj_fbx_single_truncation_warning (text : String) (nodes : FbxDict)
    (go : ObjGeo) (gf : FbxGeo)
    (ho : parse_obj text = Except.ok go)
    (hf : parse_fbx_geometry nodes = Except.ok gf) :
    (go.warnings = [] ∨ go.warnings = [truncWarning]) ∧
    (gf.warnings = [] ∨ gf.warnings = [truncWarning]) := by
  obtain ⟨s, hs, _, hw, _⟩ := parse_obj_ok_inv text go ho
  obtain ⟨acc, ha, _, _, hwf⟩ := parse_fbx_ok_inv nodes gf hf
  constructor
  · rw [hw, hs.warnEq]
    split_ifs <;> simp
  · rw [hwf, ha.warnEq]
    split_ifs <;> simp

theorem obj_fbx_single_truncation_warning_witness :
    (gObjTri.warnings = [] ∨ gObjTri.warnings = [truncWarning]) ∧
    (gFbxEmpty.warnings = [] ∨ gFbxEmpty.warnings = [truncWarning]) :=
  obj_fbx_single_truncation_warning objTri fbxEmptyTree gObjTri gFbxEmpty
    (by decide) rfl

set_option maxRecDepth 2000 in
/-- C2 (counterexample, glTF side): a glTF file with one mesh of two
primitives whose `POSITION` accessors both reach the 100000-vertex ceiling
gets TWO truncation warnings — `_extract_gltf_data` appends one per
offending primitive (lines 1131-1151), not one per file as the spec
states. -/
theorem gltf_duplicate_truncation_warnings :
    (extract_gltf_data gltfTwoBigPrims [[]]).warnings =
      [truncWarning, truncWarning] := by
  have h0 : posData gltfTwoBigPrims.accessors gltfTwoBigPrims.bufferViews [[]]
      ⟨[("POSITION", 0)], none⟩ = List.replicate (100001 * 3) (0 : ℚ) := by
    rw [posData_eq _ _ _ ⟨[("POSITION", 0)], none⟩ 0 rfl,
      read_accessor_empty_buf gltfTwoBigPrims.accessors
        gltfTwoBigPrims.bufferViews [[]] 0
        ⟨some 0, none, some 100001, some 5121, some "VEC3"⟩
        ⟨some 0, none, none, none⟩ rfl rfl rfl]
    congr 1
  have h1 : posData gltfTwoBigPrims.accessors gltfTwoBigPrims.bufferViews [[]]
      ⟨[("POSITION", 1)], none⟩ = List.replicate (1 * 3) (0 : ℚ) := by
    rw [posData_eq _ _ _ ⟨[("POSITION", 1)], none⟩ 1 rfl,
      read_accessor_empty_buf gltfTwoBigPrims.accessors
        gltfTwoBigPrims.bufferViews [[]] 1
        ⟨some 0, none, some 1, some 5121, some "VEC3"⟩
        ⟨some 0, none, none, none⟩ rfl rfl rfl]
    congr 1
  obtain ⟨hb1, hw1, hv1⟩ := processPrim_no_break gltfTwoBigPrims.accessors
    gltfTwoBigPrims.bufferViews [[]] gltfInit ⟨[("POSITION", 0)], none⟩
    (by decide)
  have hov1 : MAX_VERTICES < gltfInit.vertex_offset +
      (posData gltfTwoBigPrims.accessors gltfTwoBigPrims.bufferViews [[]]
        ⟨[("POSITION", 0)], none⟩).length / 3 := by
    rw [h0, List.length_replicate]
    decide
  rw [if_pos hov1] at hw1 hv1
  have hv1n : (processPrim gltfTwoBigPrims.accessors gltfTwoBigPrims.bufferViews
      [[]] gltfInit ⟨[("POSITION", 0)], none⟩).1.vertex_offset = 100000 := by
    rw [hv1]; decide
  have hw1n : (processPrim gltfTwoBigPrims.accessors gltfTwoBigPrims.bufferViews
      [[]] gltfInit ⟨[("POSITION", 0)], none⟩).1.warnings = [truncWarning] := by
    rw [hw1]; rfl
  have hbr := processPrim_break gltfTwoBigPrims.accessors
    gltfTwoBigPrims.bufferViews [[]]
    (processPrim gltfTwoBigPrims.accessors gltfTwoBigPrims.bufferViews [[]]
      gltfInit ⟨[("POSITION", 0)], none⟩).1 ⟨[("POSITION", 1)], none⟩
    (by rw [hv1n, h1, List.length_replicate]; decide)
    (by rw [hv1n]; decide)
  rw [extract_gltf_data_warnings, show gltfTwoBigPrims.meshes =
    [⟨[⟨[("POSITION", 0)], none⟩, ⟨[("POSITION", 1)], none⟩]⟩] from rfl,
    List.foldl_cons, List.foldl_nil,
    show (⟨[⟨[("POSITION", 0)], none⟩, ⟨[("POSITION", 1)], none⟩]⟩ :
      GMesh).primitives = [⟨[("POSITION", 0)], none⟩,
        ⟨[("POSITION", 1)], none⟩] from rfl]
  rw [processPrims_cons, hb1, if_neg Bool.false_ne_true]
  rw [processPrims_cons, hbr]
  dsimp only
  rw [hw1n]
  rfl

-- ------------------------------------------------------------------
-- C3: index validity
-- ------------------------------------------------------------------

/-- C3 (amended, OBJ/FBX side): every index the OBJ and FBX decoders output
is non-negative and strictly below the output `vertex_count`, and the index
list length is a multiple of 3.  (The glTF extractor copies index values
from the file without validating them — see the accompanying
counterexample.) -/
theorem obj_fbx_index_validity (text : String) (nodes : FbxDict)
    (go : ObjGeo) (gf : FbxGeo)
    (ho : parse_obj text = Except.ok go)
    (hf : parse_fbx_geometry nodes = Except.ok gf) :
    ((∀ i ∈ go.indices, 0 ≤ i ∧ i < (go.vertex_count : ℤ)) ∧
      go.indices.length % 3 = 0) ∧
    ((∀ i ∈ gf.indices, i < gf.vertex_count) ∧
      gf.indices.length % 3 = 0) := by
  obtain ⟨s, hs, hvc, _, hi⟩ := parse_obj_ok_inv text go ho
  obtain ⟨acc, ha, hvcf, hif, _⟩ := parse_fbx_ok_inv nodes gf hf
  refine ⟨⟨?_, ?_⟩, ?_, ?_⟩
  · intro i him
    rw [hi] at him
    have := hs.idxLt i him
    rw [hvc]
    exact this
  · rw [hi]
    exact hs.idx3
  · intro i him
    rw [hif] at him
    have := ha.idxLt i him
    rw [hvcf, ha.posOff, Nat.mul_div_cancel_left _ (by omega)]
    exact this
  · rw [hif]
    exact ha.idx3

theorem obj_fbx_index_validity_witness :
    ((∀ i ∈ gObjTri.indices, 0 ≤ i ∧ i < (gObjTri.vertex_count : ℤ)) ∧
      gObjTri.indices.length % 3 = 0) ∧
    ((∀ i ∈ gFbxEmpty.indices, i < gFbxEmpty.vertex_count) ∧
      gFbxEmpty.indices.length % 3 = 0) :=
  obj_fbx_index_validity objTri fbxEmptyTree gObjTri gFbxEmpty
    (by decide) rfl

/-- C3 (counterexample, glTF side): the glTF extractor copies index values
verbatim from the file (lines 1158-1171) — `gltfBadIndices` stores the
index bytes `[5, 5, 5]` over a 1-vertex `POSITION`, and the output violates
`index < vertex_count`. -/
theorem gltf_indices_unvalidated :
    (extract_gltf_data gltfBadIndices gltfBadIndicesBuf).vertex_count = 1 ∧
    (extract_gltf_data gltfBadIndices gltfBadIndicesBuf).indices =
      [5, 5, 5] ∧
    ¬ (∀ i ∈ (extract_gltf_data gltfBadIndices gltfBadIndicesBuf).indices,
        i < ((extract_gltf_data gltfBadIndices gltfBadIndicesBuf).vertex_count
          : ℤ)) := by
  refine ⟨rfl, rfl, ?_⟩
  intro h
  have := h 5 (by rw [show (extract_gltf_data gltfBadIndices
    gltfBadIndicesBuf).indices = [5, 5, 5] from rfl]; simp)
  rw [show (extract_gltf_data gltfBadIndices gltfBadIndicesBuf).vertex_count
    = 1 from rfl] at this
  omega

-- ------------------------------------------------------------------
-- C1 counterexample: FBX expansion exceeds the vertex ceiling
-- ------------------------------------------------------------------

theorem fbx_proj_rfl (k : ℕ) :
    (parse_fbx_geometry (fbxPolyTree k)).map
      (fun g => (g.vertex_count, g.warnings)) =
    Except.ok ((processGeom fbxAccInit (fbxPolyGeom k)).all_positions.length / 3,
               (processGeom fbxAccInit (fbxPolyGeom k)).warnings) := rfl

theorem fbx_geom_warnings (k : ℕ) :
    (processGeom fbxAccInit (fbxPolyGeom k)).warnings = [] := rfl

theorem fbx_geom_positions (k : ℕ) :
    (processGeom fbxAccInit (fbxPolyGeom k)).all_positions =
    (expandPolys 0
      (List.map pyFloatOf [PyVal.float 0, PyVal.float 0, PyVal.float 0])
      (readFbxLayer (fbxPolyGeom k).children "LayerElementNormal"
        "Normals" "NormalsIndex")
      (readFbxLayer (fbxPolyGeom k).children "LayerElementUV" "UV" "UVIndex")
      (buildPolygons (List.map pyIntOf ((List.replicate k
        [PyVal.int 0, PyVal.int 0, PyVal.int (-1)]).flatten)))).mpos := rfl

theorem buildPolygons_tris : ∀ k : ℕ,
    buildPolygons ((List.replicate k ([0, 0, -1] : List ℤ)).flatten) =
      List.replicate k [0, 0, 0]
  | 0 => rfl
  | k + 1 => by
      unfold buildPolygons
      rw [List.replicate_succ, List.flatten_cons]
      rw [show ([0, 0, -1] : List ℤ) ++
            (List.replicate k ([0, 0, -1] : List ℤ)).flatten =
          [0, 0] ++ (-1) ::
            (List.replicate k ([0, 0, -1] : List ℤ)).flatten from by simp]
      rw [buildPolygonsGo_append [0, 0] [] (by intro x hx; simp at hx; omega)
          (-1) (by omega) _]
      have ih := buildPolygons_tris k
      unfold buildPolygons at ih
      rw [ih, List.replicate_succ]
      norm_num

theorem map_pyIntOf_tris (k : ℕ) :
    List.map pyIntOf ((List.replicate k
      [PyVal.int 0, PyVal.int 0, PyVal.int (-1)]).flatten) =
    (List.replicate k ([0, 0, -1] : List ℤ)).flatten := by
  rw [List.map_flatten, List.map_replicate]
  rfl

set_option maxRecDepth 2000 in
/-- C1 (counterexample, FBX side): the FBX vertex ceiling is applied to the
*source* position triples of each geometry (lines 752-767), but the decoder
then re-expands one output vertex per polygon-loop entry (lines 892-913)
without re-checking the cap: a file with a single source vertex and 33334
one-vertex triangle loops decodes to `vertex_count = 100002 > 100000` with
no warning recorded. -/
theorem fbx_expanded_vertices_exceed_cap :
    (parse_fbx_geometry (fbxPolyTree 33334)).map
      (fun g => (g.vertex_count, g.warnings)) =
    Except.ok (100002, []) ∧ MAX_VERTICES < 100002 := by
  refine ⟨?_, by decide⟩
  rw [fbx_proj_rfl, fbx_geom_warnings, fbx_geom_positions,
    map_pyIntOf_tris, buildPolygons_tris]
  obtain ⟨-, k2, -, k4⟩ := expandPolys_spec 0
    (List.map pyFloatOf [PyVal.float 0, PyVal.float 0, PyVal.float 0])
    (readFbxLayer (fbxPolyGeom 33334).children "LayerElementNormal"
      "Normals" "NormalsIndex")
    (readFbxLayer (fbxPolyGeom 33334).children "LayerElementUV" "UV"
      "UVIndex")
    (List.replicate 33334 [0, 0, 0])
    (by intro p hp v hv; rw [List.eq_of_mem_replicate hp] at hv
        simp at hv; omega)
  rw [k2, k4]
  norm_num [List.sum_replicate]

-- ------------------------------------------------------------------
-- C5: keyframe decimation
-- ------------------------------------------------------------------

set_option maxRecDepth 100000 in
/-- C5 (counterexample): a glTF animation track with 501 source keyframes is
NOT decimated to 500 — `step = max(1, 501 // 500) = 1` keeps all 501 indices
and the final-sample append does not fire, so the emitted track holds 501
keyframes, above `_MAX_KEYFRAMES`. -/
theorem gltf_track_exceeds_max_keyframes :
    (extract_gltf_data gltfLongAnim [[]]).animations.map
      (fun l => l.map (fun a => a.tracks.map (fun t => t.times.length))) =
      some [[501]] ∧ MAX_KEYFRAMES < 501 := by
  exact ⟨by decide, by decide⟩

theorem pyRangeStep_getD (stop step i : ℕ)
    (hi : i < (pyRangeStep stop step).length) :
    (pyRangeStep stop step).getD i 0 = i * step := by
  unfold pyRangeStep at *
  rw [List.getD_eq_getElem _ _ hi]
  simp only [List.getElem_map]
  rw [List.getElem_range]

/-- C5 (amended): for every non-empty source timeline of `n` samples the
decimation index set `strideIdx n` is produced by uniform striding with
`step = max(1, n // 500)` (entry `i` of the range part is `i * step`),
always contains the first (`0`) and last (`n - 1`) sample, and its length
is bounded by 999 — not by the 500 the spec states (the stride keeps up to
`n // step ≤ 999` indices when `n ≤ 999`, plus the appended final
sample). -/
theorem keyframe_stride_bounds (n : ℕ) (h : 1 ≤ n) :
    (strideIdx n).length ≤ 999 ∧
    (strideIdx n).head? = some 0 ∧
    (strideIdx n).getLast? = some (n - 1) ∧
    (∀ i, i < (pyRangeStep n (Max.max 1 (n / MAX_KEYFRAMES))).length →
      (strideIdx n).getD i 0 = i * Max.max 1 (n / MAX_KEYFRAMES)) := by
  set q := n / MAX_KEYFRAMES with hqdef
  set step := Max.max 1 q with hstepdef
  have hstep : 1 ≤ step := le_max_left _ _
  set L := (n + step - 1) / step with hLdef
  have hLlen : (pyRangeStep n step).length = L := by
    unfold pyRangeStep
    rw [List.length_map, List.length_range]
  have hL1 : 1 ≤ L := by
    rw [hLdef, Nat.le_div_iff_mul_le (by omega)]
    omega
  have hqb : 500 * q ≤ n ∧ n < 500 * q + 500 := by
    rw [hqdef]
    unfold MAX_KEYFRAMES
    omega
  have hstep_cases : (q ≤ 1 ∧ step = 1) ∨ (2 ≤ q ∧ step = q) := by
    rw [hstepdef]
    rcases le_or_lt q 1 with hq | hq
    · left; exact ⟨hq, by omega⟩
    · right; exact ⟨hq, by omega⟩
  have hLbound : L ≤ 999 ∧ (step = 1 → L = n) := by
    rcases hstep_cases with ⟨hq, hs⟩ | ⟨hq, hs⟩
    · constructor
      · rw [hLdef, hs]
        simp only [Nat.add_sub_cancel, Nat.div_one]
        omega
      · intro _
        rw [hLdef, hs]
        simp [Nat.add_sub_cancel]
    · constructor
      · rw [hLdef, hs]
        have : (n + q - 1) / q < 751 := by
          rw [Nat.div_lt_iff_lt_mul (by omega)]
          omega
        omega
      · intro h1; omega
  have hlast : (pyRangeStep n step).getLast? = some ((L - 1) * step) := by
    rw [List.getLast?_eq_getElem?]
    rw [hLlen]
    unfold pyRangeStep
    rw [List.getElem?_map]
    rw [List.getElem?_range (by omega)]
    rfl
  have hhead : (pyRangeStep n step).head? = some 0 := by
    obtain ⟨m, hm⟩ : ∃ m, L = m + 1 := ⟨L - 1, by omega⟩
    unfold pyRangeStep
    rw [show (n + step - 1) / step = L from rfl, hm, List.range_succ_eq_map]
    simp
  have hstr : strideIdx n =
      if pyRangeStep n step ≠ [] ∧
          (pyRangeStep n step).getLast? ≠ some (n - 1) then
        pyRangeStep n step ++ [n - 1]
      else pyRangeStep n step := rfl
  have hne : pyRangeStep n step ≠ [] := by
    intro he
    have h0 : (pyRangeStep n step).length = 0 := by rw [he]; rfl
    omega
  by_cases hc : (pyRangeStep n step).getLast? = some (n - 1)
  · rw [hstr, if_neg (by simp [hc])]
    refine ⟨by omega, hhead, hc, ?_⟩
    intro i hi
    exact pyRangeStep_getD n step i hi
  · have hcond : pyRangeStep n step ≠ [] ∧
        (pyRangeStep n step).getLast? ≠ some (n - 1) := ⟨hne, hc⟩
    rw [hstr, if_pos hcond]
    have hq2 : 2 ≤ q := by
      by_contra hq1
      have hs1 : step = 1 := by rw [hstepdef]; omega
      have hLn : L = n := hLbound.2 hs1
      apply hc
      rw [hlast, hs1, hLn]
      simp
    have hL750 : L ≤ 750 := by
      have hs : step = q := by rw [hstepdef]; omega
      rw [hLdef, hs]
      have : (n + q - 1) / q < 751 := by
        rw [Nat.div_lt_iff_lt_mul (by omega)]
        omega
      omega
    refine ⟨?_, ?_, ?_, ?_⟩
    · rw [List.length_append, hLlen]
      simp
      omega
    · obtain ⟨a, t, ht⟩ := List.exists_cons_of_ne_nil hne
      rw [ht] at hhead ⊢
      simpa using hhead
    · exact List.getLast?_concat _
    · intro i hi
      rw [List.getD_append _ _ _ _ (by omega)]
      exact pyRangeStep_getD n step i hi

theorem keyframe_stride_bounds_witness :
    (strideIdx 501).length ≤ 999 ∧
    (strideIdx 501).head? = some 0 ∧
    (strideIdx 501).getLast? = some (501 - 1) ∧
    (∀ i, i < (pyRangeStep 501 (Max.max 1 (501 / MAX_KEYFRAMES))).length →
      (strideIdx 501).getD i 0 = i * Max.max 1 (501 / MAX_KEYFRAMES)) :=
  keyframe_stride_bounds 501 (by decide)

-- ------------------------------------------------------------------
-- C6: glTF bone order and parent resolution
-- ------------------------------------------------------------------

theorem agetN_cons (m : List (ℕ × ℕ)) (k v x : ℕ) :
    agetN ((k, v) :: m) x = if k = x then some v else agetN m x := by
  unfold agetN
  simp only [List.find?_cons]
  by_cases h : k = x
  · subst h
    simp
  · have hb : (((k, v) : ℕ × ℕ).1 == x) = false := by simpa using h
    simp [hb, h]

theorem idxOf_mem (x : ℕ) : ∀ (l : List ℕ) (b : ℕ), idxOf x l = some b → x ∈ l
  | [], b, h => by simp [idxOf] at h
  | y :: l, b, h => by
      rw [idxOf] at h
      by_cases hy : y = x
      · simp [hy]
      · rw [if_neg hy] at h
        rcases ho : idxOf x l with _ | b2
        · rw [ho] at h; simp at h
        · exact List.mem_cons_of_mem _ (idxOf_mem x l b2 ho)

theorem idxOf_append (x y : ℕ) : ∀ (pre : List ℕ),
    idxOf x (pre ++ [y]) =
      (match idxOf x pre with
       | some b => some b
       | none => if y = x then some pre.length else none)
  | [] => by
      simp only [List.nil_append, idxOf]
      split_ifs <;> rfl
  | z :: pre => by
      rw [show (z :: pre) ++ [y] = z :: (pre ++ [y]) from rfl]
      rw [idxOf, idxOf]
      by_cases h : z = x
      · rw [if_pos h, if_pos h]
      · rw [if_neg h, if_neg h, idxOf_append x y pre]
        rcases ho : idxOf x pre with _ | b
        · simp only [Option.map_none]
          by_cases hy : y = x
          · rw [if_pos hy, if_pos hy]
            simp [List.length_cons]
          · rw [if_neg hy, if_neg hy]
            rfl
        · rfl

theorem j2b_lookup_step (pre : List ℕ) (j2b : List (ℕ × ℕ)) (jni : ℕ)
    (hmem : jni ∉ pre)
    (hlok : ∀ x, agetN j2b x = idxOf x pre) :
    ∀ x, agetN ((jni, pre.length) :: j2b) x = idxOf x (pre ++ [jni]) := by
  intro x
  rw [agetN_cons, hlok x, idxOf_append x jni pre]
  by_cases h : jni = x
  · subst h
    rcases ho : idxOf jni pre with _ | b
    · simp
    · exact absurd (idxOf_mem jni pre b ho) hmem
  · rcases ho : idxOf x pre with _ | b
    · simp [h]
    · simp [h]

theorem buildBonesGo_spec (nodes : List GNode) (nps : List (ℕ × ℕ))
    (ibm : List ℚ) :
    ∀ (joints pre : List ℕ) (j2b : List (ℕ × ℕ)),
    (pre ++ joints).Nodup →
    (∀ x, agetN j2b x = idxOf x pre) →
    (buildBonesGo nodes nps ibm pre.length j2b joints).1.length =
      min joints.length (MAX_BONES - pre.length) ∧
    (∀ k, k < (buildBonesGo nodes nps ibm pre.length j2b joints).1.length →
      ((buildBonesGo nodes nps ibm pre.length j2b joints).1.getD k
          ⟨"", 0, []⟩).parent =
        directParentRule nps (pre ++ joints.take k) (joints.getD k 0) ∧
      ((buildBonesGo nodes nps ibm pre.length j2b joints).1.getD k
          ⟨"", 0, []⟩).name =
        ((nodes.get? (joints.getD k 0)).getD ⟨none, []⟩).name.getD
          ("bone_" ++ toString (pre.length + k)))
  | [], pre, j2b, hnd, hlok => by
      rw [buildBonesGo]
      exact ⟨by simp, by intro k hk; simp at hk⟩
  | jni :: rest, pre, j2b, hnd, hlok => by
      rw [buildBonesGo]
      by_cases hcap : MAX_BONES ≤ pre.length
      · rw [if_pos hcap]
        refine ⟨?_, ?_⟩
        · simp only [List.length_nil]
          omega
        · intro k hk
          simp at hk
      · rw [if_neg hcap]
        dsimp only
        have hmem : jni ∉ pre := by
          rw [List.nodup_append] at hnd
          intro hin
          exact hnd.2.2 hin (by simp)
        have hnd' : ((pre ++ [jni]) ++ rest).Nodup := by
          rw [List.append_assoc]
          simpa using hnd
        have hlok' := j2b_lookup_step pre j2b jni hmem hlok
        have hIH := buildBonesGo_spec nodes nps ibm rest (pre ++ [jni])
          ((jni, pre.length) :: j2b) hnd' hlok'
        rw [show (pre ++ [jni]).length = pre.length + 1 from by simp] at hIH
        obtain ⟨ihlen, ihk⟩ := hIH
        constructor
        · rw [List.length_cons, ihlen]
          simp only [Nat.min_def, List.length_cons]
          split_ifs <;> unfold MAX_BONES at * <;> omega
        · intro k hk
          match k with
          | 0 =>
            refine ⟨?_, ?_⟩
            · rw [List.getD_cons_zero]
              unfold directParentRule
              simp only [List.take_zero, List.append_nil, List.getD_cons_zero]
              rcases hp : agetN nps jni with _ | pn
              · rfl
              · dsimp only
                rw [hlok pn]
            · rw [List.getD_cons_zero]
              simp only [List.getD_cons_zero, Nat.add_zero]
          | k + 1 =>
            rw [List.length_cons] at hk
            have hk' : k < (buildBonesGo nodes nps ibm (pre.length + 1)
                ((jni, pre.length) :: j2b) rest).1.length := by omega
            obtain ⟨ihp, ihn⟩ := ihk k hk'
            refine ⟨?_, ?_⟩
            · rw [List.getD_cons_succ, ihp]
              simp only [List.take_succ_cons, List.getD_cons_succ]
              rw [show pre ++ jni :: List.take k rest =
                (pre ++ [jni]) ++ List.take k rest from by simp]
            · rw [List.getD_cons_succ, ihn]
              simp only [List.getD_cons_succ]
              rw [show pre.length + (k + 1) = pre.length + 1 + k from by omega]

/-- C6 (amended): glTF bones are emitted in the skin's `joints` order,
capped at `_MAX_BONES` (128) — bone `k` is named after the node of
`joints[k]` — and each bone's `parent` is the bone index of its node's
DIRECT parent when that parent is an earlier-emitted joint, and `-1`
otherwise (the loop does not walk further ancestors — see the accompanying
counterexample against the spec's nearest-ancestor rule). -/
theorem gltf_bone_order_and_direct_parent (nodes : List GNode)
    (nps : List (ℕ × ℕ)) (ibm : List ℚ) (joints : List ℕ)
    (hnd : joints.Nodup) :
    (buildBonesGo nodes nps ibm 0 [] joints).1.length =
      min joints.length MAX_BONES ∧
    ∀ k, k < (buildBonesGo nodes nps ibm 0 [] joints).1.length →
      ((buildBonesGo nodes nps ibm 0 [] joints).1.getD k ⟨"", 0, []⟩).parent =
        directParentRule nps (joints.take k) (joints.getD k 0) ∧
      ((buildBonesGo nodes nps ibm 0 [] joints).1.getD k ⟨"", 0, []⟩).name =
        ((nodes.get? (joints.getD k 0)).getD ⟨none, []⟩).name.getD
          ("bone_" ++ toString k) := by
  have h := buildBonesGo_spec nodes nps ibm joints [] []
    (by simpa using hnd) (fun x => rfl)
  simpa using h

theorem gltf_bone_order_and_direct_parent_witness :
    (buildBonesGo gltfGrandparentJoint.nodes
      (nodeParents gltfGrandparentJoint.nodes) [] 0 [] [0, 2]).1.length =
      min ([0, 2] : List ℕ).length MAX_BONES ∧
    ∀ k, k < (buildBonesGo gltfGrandparentJoint.nodes
        (nodeParents gltfGrandparentJoint.nodes) [] 0 [] [0, 2]).1.length →
      ((buildBonesGo gltfGrandparentJoint.nodes
          (nodeParents gltfGrandparentJoint.nodes) [] 0 []
          [0, 2]).1.getD k ⟨"", 0, []⟩).parent =
        directParentRule (nodeParents gltfGrandparentJoint.nodes)
          (([0, 2] : List ℕ).take k) (([0, 2] : List ℕ).getD k 0) ∧
      ((buildBonesGo gltfGrandparentJoint.nodes
          (nodeParents gltfGrandparentJoint.nodes) [] 0 []
          [0, 2]).1.getD k ⟨"", 0, []⟩).name =
        ((gltfGrandparentJoint.nodes.get? (([0, 2] : List ℕ).getD k 0)).getD
          ⟨none, []⟩).name.getD ("bone_" ++ toString k) :=
  gltf_bone_order_and_direct_parent gltfGrandparentJoint.nodes
    (nodeParents gltfGrandparentJoint.nodes) [] [0, 2] (by decide)

/-- C6 (counterexample): in `gltfGrandparentJoint` the node chain is
`0 → 1 → 2` with `joints = [0, 2]`; node 2's direct parent (node 1) is not
a joint, so the extractor emits `parent = -1` for bone 1, while the spec's
nearest-ancestor-joint rule (`specNearestAncestorJoint`) resolves it to
bone 0. -/
theorem gltf_bone_parent_misses_ancestor :
    (extract_gltf_data gltfGrandparentJoint [[]]).skeleton.map
      (fun s => s.bones.map (fun b => (b.name, b.parent))) =
      some [("bone_0", -1), ("bone_1", -1)] ∧
    specNearestAncestorJoint (nodeParents gltfGrandparentJoint.nodes)
      [0, 2] gltfGrandparentJoint.nodes.length 2 = 0 :=
  ⟨by decide, by decide⟩

-- ------------------------------------------------------------------
-- C4: bone-weight normalization
-- ------------------------------------------------------------------

/-- C4 (counterexample, glTF side): the glTF extractor copies `WEIGHTS_0`
verbatim (`bone_weights = round(w, 6)` over the raw accessor floats, lines
1278-1283) with no renormalization: a skinned glTF whose `WEIGHTS_0` bytes
are `[3, 3, 3, 3]` yields the per-vertex quadruple `[3, 3, 3, 3]`, whose
sum 12 is neither within tolerance of 1 nor all-zero. -/
theorem gltf_bone_weights_copied_verbatim :
    (extract_gltf_data gltfRawWeights gltfRawWeightsBuf).skeleton.map
      (fun s => s.bone_weights) = some [3, 3, 3, 3] ∧
    ¬ (|(([3, 3, 3, 3] : List ℚ).sum : ℚ) - 1| ≤ 1 / 500000) ∧
    ([3, 3, 3, 3] : List ℚ) ≠ [0, 0, 0, 0] :=
  ⟨by decide, by decide, by decide⟩

theorem mem_modify {α : Type} (f : α → α) (i : ℕ) (l : List α) (x : α)
    (hx : x ∈ List.modify f i l) : x ∈ l ∨ ∃ y ∈ l, x = f y := by
  by_cases hi : i < l.length
  · rw [List.modify_eq_take_cons_drop hi] at hx
    rcases List.mem_append.mp hx with h | h
    · exact Or.inl (List.mem_of_mem_take h)
    · rcases List.mem_cons.mp h with rfl | h
      · exact Or.inr ⟨l[i], List.getElem_mem hi, rfl⟩
      · exact Or.inl (List.mem_of_mem_drop h)
  · rw [List.modify_eq_set_get?, List.get?_eq_none.mpr (by omega)] at hx
    exact Or.inl hx

theorem foldl_inv {α β : Type} (P : β → Prop) (f : β → α → β) :
    ∀ (l : List α) (b : β), P b → (∀ b a, P b → P (f b a)) → P (l.foldl f b)
  | [], _, hb, _ => hb
  | a :: l, b, hb, hf => foldl_inv P f l (f b a) (hf b a hb) hf

/-- Invariant: every influence pair collected has positive weight. -/
theorem buildInfluences_pos (vc : ℕ) (gm : List (PyVal × List (ℤ × List ℕ)))
    (clusters : List FbxCluster) :
    ∀ l ∈ buildInfluences vc gm clusters, ∀ p ∈ l, 0 < p.2 := by
  unfold buildInfluences
  refine foldl_inv (fun infl : List (List (ℕ × ℚ)) => ∀ l ∈ infl, ∀ p ∈ l, 0 < p.2) _ _ _ ?_ ?_
  · intro l hl p hp
    rw [List.eq_of_mem_replicate hl] at hp
    simp at hp
  · intro infl c hinf
    unfold clusterInfluences
    refine foldl_inv (fun infl : List (List (ℕ × ℚ)) => ∀ l ∈ infl, ∀ p ∈ l, 0 < p.2) _ _ _ hinf ?_
    intro infl2 iv hinf2
    dsimp only
    by_cases hw : c.wt.getD iv.1 0 ≤ 0
    · rw [if_pos hw]
      exact hinf2
    · rw [if_neg hw]
      refine foldl_inv (fun infl : List (List (ℕ × ℚ)) => ∀ l ∈ infl, ∀ p ∈ l, 0 < p.2) _ _ _ hinf2 ?_
      intro infl3 exp hinf3
      by_cases he : exp < vc
      · rw [if_pos he]
        intro l hl p hp
        rcases mem_modify _ _ _ _ hl with h | ⟨y, hy, rfl⟩
        · exact hinf3 l h p hp
        · rcases List.mem_append.mp hp with h | h
          · exact hinf3 y hy p h
          · simp at h
            rw [h]
            refine lt_of_not_le ?_
            intro hle
            apply hw
            simpa [List.getD] using hle
      · rw [if_neg he]
        exact hinf3

theorem buildInfluences_length (vc : ℕ) (gm : List (PyVal × List (ℤ × List ℕ)))
    (clusters : List FbxCluster) :
    (buildInfluences vc gm clusters).length = vc := by
  unfold buildInfluences
  refine foldl_inv (fun infl : List (List (ℕ × ℚ)) => infl.length = vc) _ _ _
    (List.length_replicate _ _) ?_
  intro infl c hinf
  unfold clusterInfluences
  refine foldl_inv (fun infl : List (List (ℕ × ℚ)) => infl.length = vc) _ _ _
    hinf ?_
  intro infl2 iv hinf2
  dsimp only
  split
  · exact hinf2
  · refine foldl_inv (fun infl : List (List (ℕ × ℚ)) => infl.length = vc) _ _ _
      hinf2 ?_
    intro infl3 exp hinf3
    split
    · unfold addInfluence
      rw [List.length_modify]
      exact hinf3
    · exact hinf3

theorem mem_insertDescByWeight (a x : ℕ × ℚ) :
    ∀ (l : List (ℕ × ℚ)), x ∈ insertDescByWeight a l → x = a ∨ x ∈ l
  | [] => by simp [insertDescByWeight]
  | b :: bs => by
      rw [insertDescByWeight]
      split_ifs
      · intro hx
        rcases List.mem_cons.mp hx with rfl | hx
        · exact Or.inr (by simp)
        · rcases mem_insertDescByWeight a x bs hx with h | h
          · exact Or.inl h
          · exact Or.inr (by simp [h])
      · intro hx
        rcases List.mem_cons.mp hx with rfl | hx
        · exact Or.inl rfl
        · exact Or.inr hx

theorem mem_sortDescByWeight (x : ℕ × ℚ) :
    ∀ (l : List (ℕ × ℚ)), x ∈ sortDescByWeight l → x ∈ l
  | [] => by simp [sortDescByWeight]
  | a :: l => by
      intro hx
      rcases mem_insertDescByWeight a x (sortDescByWeight l) hx with h | h
      · simp [h]
      · exact List.mem_cons_of_mem _ (mem_sortDescByWeight x l h)

theorem length_insertDescByWeight (a : ℕ × ℚ) :
    ∀ (l : List (ℕ × ℚ)),
      (insertDescByWeight a l).length = l.length + 1
  | [] => rfl
  | b :: bs => by
      rw [insertDescByWeight]
      split_ifs
      · rw [List.length_cons, length_insertDescByWeight a bs]
        rfl
      · rfl

theorem length_sortDescByWeight :
    ∀ (l : List (ℕ × ℚ)), (sortDescByWeight l).length = l.length
  | [] => rfl
  | a :: l => by
      unfold sortDescByWeight
      rw [List.foldr_cons, length_insertDescByWeight,
        show List.foldr insertDescByWeight [] l = sortDescByWeight l from rfl,
        length_sortDescByWeight l]
      rfl

theorem weightBlock_len (inf : List (ℕ × ℚ)) :
    (weightBlock inf).2.length = 4 := by
  unfold weightBlock
  dsimp only
  rw [List.length_map, List.length_append, List.length_map,
    List.length_replicate]
  have h := List.length_take_le 4 (sortDescByWeight inf)
  omega

set_option maxHeartbeats 1000000 in
theorem weightBlock_zero : weightBlock [] = ([0, 0, 0, 0], [0, 0, 0, 0]) := by
  decide

set_option maxHeartbeats 1000000 in
theorem weightBlock_sum (inf : List (ℕ × ℚ)) (hne : inf ≠ [])
    (hpos : ∀ p ∈ inf, 0 < p.2) :
    |(weightBlock inf).2.sum - 1| ≤ 1 / 500000 := by
  unfold weightBlock
  dsimp only
  set top4 := (sortDescByWeight inf).take 4 with htop4
  set total := (top4.map (fun p : ℕ × ℚ => p.2)).sum with htotal
  have htne : top4 ≠ [] := by
    rw [htop4, ← List.length_pos, List.length_take,
      length_sortDescByWeight]
    have : 0 < inf.length := List.length_pos.mpr hne
    omega
  have htpos : ∀ p ∈ top4, 0 < p.2 := by
    intro p hp
    exact hpos p (mem_sortDescByWeight p inf (List.mem_of_mem_take hp))
  have htotpos : 0 < total := by
    rw [htotal]
    apply List.sum_pos
    · intro q hq
      rw [List.mem_map] at hq
      obtain ⟨p, hp, rfl⟩ := hq
      exact htpos p hp
    · simpa using htne
  simp only [if_pos htotpos]
  have hsum : ((top4.map (fun p : ℕ × ℚ => p.2 / total)
      ++ List.replicate (4 - top4.length) 0)).sum = 1 := by
    rw [List.sum_append, List.sum_replicate]
    simp only [smul_zero, add_zero]
    rw [show (fun p : ℕ × ℚ => p.2 / total) =
      (fun p : ℕ × ℚ => p.2 * total⁻¹) from by funext p; rw [div_eq_mul_inv]]
    rw [List.sum_map_mul_right, ← htotal]
    exact mul_inv_cancel₀ (ne_of_gt htotpos)
  have herr := sum_map_pyRound_err
    (top4.map (fun p : ℕ × ℚ => p.2 / total)
      ++ List.replicate (4 - top4.length) 0)
  rw [hsum] at herr
  have hlen : ((top4.map (fun p : ℕ × ℚ => p.2 / total)
      ++ List.replicate (4 - top4.length) 0)).length = 4 := by
    rw [List.length_append, List.length_map, List.length_replicate]
    have h := List.length_take_le 4 (sortDescByWeight inf)
    rw [htop4]
    omega
  rw [hlen] at herr
  exact le_trans herr (by norm_num)

theorem flattenInfluences_go (influences : List (List (ℕ × ℚ))) :
    ∀ (acc : List ℤ × List ℚ),
    influences.foldl
      (fun acc inf =>
        let blk := weightBlock inf
        (acc.1 ++ blk.1, acc.2 ++ blk.2)) acc =
    (acc.1 ++ (influences.map (fun inf => (weightBlock inf).1)).flatten,
     acc.2 ++ (influences.map (fun inf => (weightBlock inf).2)).flatten) := by
  induction influences with
  | nil => intro acc; simp
  | cons inf rest ih =>
      intro acc
      rw [List.foldl_cons, ih]
      simp [List.append_assoc]

theorem flattenInfluences_snd (influences : List (List (ℕ × ℚ))) :
    (flattenInfluences influences).2 =
    (influences.map (fun inf => (weightBlock inf).2)).flatten := by
  unfold flattenInfluences
  rw [flattenInfluences_go]
  simp

/-- C4 (amended, FBX side): in the FBX decoder every per-vertex
`bone_weights` quadruple either is exactly `[0, 0, 0, 0]` (vertex with no
influence) or sums to 1 within `4` roundings of tolerance (`1/500000`),
because the top-4 influences are renormalized by their positive total
before rounding.  (The glTF extractor does not renormalize — see the
accompanying counterexample.) -/
theorem fbx_bone_weight_normalization (vc : ℕ)
    (gm : List (PyVal × List (ℤ × List ℕ))) (clusters : List FbxCluster) :
    (flattenInfluences (buildInfluences vc gm clusters)).2.length = 4 * vc ∧
    ∀ i, i < vc →
      ((((flattenInfluences (buildInfluences vc gm clusters)).2.drop
          (4 * i)).take 4 = [0, 0, 0, 0] ∧
        (buildInfluences vc gm clusters).getD i [] = []) ∨
       (|((((flattenInfluences (buildInfluences vc gm clusters)).2.drop
          (4 * i)).take 4).sum : ℚ) - 1| ≤ 1 / 500000 ∧
        (buildInfluences vc gm clusters).getD i [] ≠ [])) := by
  set influences := buildInfluences vc gm clusters with hinf
  have hlen : influences.length = vc := buildInfluences_length vc gm clusters
  have hpos := buildInfluences_pos vc gm clusters
  have hsnd := flattenInfluences_snd influences
  have hbl : ∀ l ∈ influences.map (fun inf => (weightBlock inf).2),
      l.length = 4 := by
    intro l hl
    rw [List.mem_map] at hl
    obtain ⟨inf, _, rfl⟩ := hl
    exact weightBlock_len inf
  constructor
  · rw [hsnd]
    rw [List.length_flatten]
    rw [List.map_map]
    have hrep : (List.map (List.length ∘ fun inf => (weightBlock inf).2)
        influences) = List.replicate vc 4 := by
      rw [List.eq_replicate_iff]
      refine ⟨by rw [List.length_map, hlen], ?_⟩
      intro x hx
      rw [List.mem_map] at hx
      obtain ⟨inf, _, rfl⟩ := hx
      exact weightBlock_len inf
    rw [hrep, List.sum_replicate, smul_eq_mul]
    omega
  · intro i hi
    have hiL : i < (influences.map (fun inf => (weightBlock inf).2)).length := by
      rw [List.length_map, hlen]
      exact hi
    have hblk := flatten_blocks_get 4 _ hbl i hiL
    rw [hsnd, hblk]
    have hgd : (influences.map (fun inf => (weightBlock inf).2)).getD i [] =
        (weightBlock (influences.getD i [])).2 := by
      rw [List.getD_eq_getElem _ _ hiL, List.getElem_map,
        List.getD_eq_getElem _ _ (by rw [hlen]; exact hi)]
    rw [hgd]
    by_cases hz : influences.getD i [] = []
    · left
      refine ⟨?_, hz⟩
      rw [hz]
      rw [show (weightBlock []).2 = [0, 0, 0, 0] from by
        rw [weightBlock_zero]]
    · right
      refine ⟨?_, hz⟩
      have hmem : influences.getD i [] ∈ influences := by
        rw [List.getD_eq_getElem _ _ (by rw [hlen]; exact hi)]
        exact List.getElem_mem _
      exact weightBlock_sum _ hz (hpos _ hmem)

-- ------------------------------------------------------------------
-- C1 counterexample, glTF side: non-VEC3 POSITION outruns the cap
-- ------------------------------------------------------------------

theorem extract_gltf_data_vertex_count (g : Gltf) (buffers : List (List ℕ)) :
    (extract_gltf_data g buffers).vertex_count =
      (g.meshes.foldl (fun st m =>
        processPrims g.accessors g.bufferViews buffers st m.primitives)
        gltfInit).all_positions.length / 3 := rfl

theorem processPrim_no_over (A : List GAccessor) (BV : List GBufferView)
    (bufs : List (List ℕ)) (st : GltfAcc) (p : GPrimitive)
    (hov : ¬ (MAX_VERTICES < st.vertex_offset + (posData A BV bufs p).length / 3)) :
    (processPrim A BV bufs st p).2 = false ∧
    (processPrim A BV bufs st p).1.warnings = st.warnings ∧
    (processPrim A BV bufs st p).1.all_positions =
      st.all_positions ++ posData A BV bufs p ∧
    (processPrim A BV bufs st p).1.vertex_offset =
      st.vertex_offset + (posData A BV bufs p).length / 3 := by
  have hov' : ¬ (MAX_VERTICES < st.vertex_offset +
      (match attrGet p.attributes "POSITION" with
       | some i => read_accessor A BV bufs i
       | none => []).length / 3) := hov
  unfold processPrim
  dsimp only
  rw [if_neg (fun hc => hov' hc.1)]
  simp only [if_neg hov']
  split
  · exact ⟨rfl, rfl, rfl, rfl⟩
  · exact ⟨rfl, rfl, rfl, rfl⟩

set_option maxRecDepth 2000 in
/-- The glTF vertex ceiling is also breachable: `n_verts` is derived as
`len(pos_data) // 3` whatever the accessor's type, while the untruncated
flat data is appended in full, so three `VEC4` `POSITION` primitives of
counts 74999, 1 and 1 pass every per-primitive cap check yet produce
`vertex_count = 100001 > 100000` with no warning. -/
theorem gltf_expanded_vertices_exceed_cap :
    (extract_gltf_data gltfVec4Prims [[]]).vertex_count = 100001 ∧
    (extract_gltf_data gltfVec4Prims [[]]).warnings = [] ∧
    MAX_VERTICES < 100001 := by
  have h0 : posData gltfVec4Prims.accessors gltfVec4Prims.bufferViews [[]]
      ⟨[("POSITION", 0)], none⟩ = List.replicate (74999 * 4) (0 : ℚ) := by
    rw [posData_eq _ _ _ ⟨[("POSITION", 0)], none⟩ 0 rfl,
      read_accessor_empty_buf gltfVec4Prims.accessors
        gltfVec4Prims.bufferViews [[]] 0
        ⟨some 0, none, some 74999, some 5121, some "VEC4"⟩
        ⟨some 0, none, none, none⟩ rfl rfl rfl]
    congr 1
  have h1 : posData gltfVec4Prims.accessors gltfVec4Prims.bufferViews [[]]
      ⟨[("POSITION", 1)], none⟩ = List.replicate (1 * 4) (0 : ℚ) := by
    rw [posData_eq _ _ _ ⟨[("POSITION", 1)], none⟩ 1 rfl,
      read_accessor_empty_buf gltfVec4Prims.accessors
        gltfVec4Prims.bufferViews [[]] 1
        ⟨some 0, none, some 1, some 5121, some "VEC4"⟩
        ⟨some 0, none, none, none⟩ rfl rfl rfl]
    congr 1
  have h2 : posData gltfVec4Prims.accessors gltfVec4Prims.bufferViews [[]]
      ⟨[("POSITION", 2)], none⟩ = List.replicate (1 * 4) (0 : ℚ) := by
    rw [posData_eq _ _ _ ⟨[("POSITION", 2)], none⟩ 2 rfl,
      read_accessor_empty_buf gltfVec4Prims.accessors
        gltfVec4Prims.bufferViews [[]] 2
        ⟨some 0, none, some 1, some 5121, some "VEC4"⟩
        ⟨some 0, none, none, none⟩ rfl rfl rfl]
    congr 1
  obtain ⟨hb1, hw1, hp1, hv1⟩ := processPrim_no_over gltfVec4Prims.accessors
    gltfVec4Prims.bufferViews [[]] gltfInit ⟨[("POSITION", 0)], none⟩
    (by rw [h0, List.length_replicate]; decide)
  have hv1n : (processPrim gltfVec4Prims.accessors gltfVec4Prims.bufferViews
      [[]] gltfInit ⟨[("POSITION", 0)], none⟩).1.vertex_offset = 99998 := by
    rw [hv1, h0, List.length_replicate]
    decide
  obtain ⟨hb2, hw2, hp2, hv2⟩ := processPrim_no_over gltfVec4Prims.accessors
    gltfVec4Prims.bufferViews [[]]
    (processPrim gltfVec4Prims.accessors gltfVec4Prims.bufferViews [[]]
      gltfInit ⟨[("POSITION", 0)], none⟩).1 ⟨[("POSITION", 1)], none⟩
    (by rw [hv1n, h1, List.length_replicate]; decide)
  have hv2n : (processPrim gltfVec4Prims.accessors gltfVec4Prims.bufferViews
      [[]] (processPrim gltfVec4Prims.accessors gltfVec4Prims.bufferViews [[]]
        gltfInit ⟨[("POSITION", 0)], none⟩).1
      ⟨[("POSITION", 1)], none⟩).1.vertex_offset = 99999 := by
    rw [hv2, hv1n, h1, List.length_replicate]
  obtain ⟨hb3, hw3, hp3, hv3⟩ := processPrim_no_over gltfVec4Prims.accessors
    gltfVec4Prims.bufferViews [[]]
    (processPrim gltfVec4Prims.accessors gltfVec4Prims.bufferViews [[]]
      (processPrim gltfVec4Prims.accessors gltfVec4Prims.bufferViews [[]]
        gltfInit ⟨[("POSITION", 0)], none⟩).1
      ⟨[("POSITION", 1)], none⟩).1 ⟨[("POSITION", 2)], none⟩
    (by rw [hv2n, h2, List.length_replicate]; decide)
  refine ⟨?_, ?_, by decide⟩
  · rw [extract_gltf_data_vertex_count, show gltfVec4Prims.meshes =
      [⟨[⟨[("POSITION", 0)], none⟩, ⟨[("POSITION", 1)], none⟩,
         ⟨[("POSITION", 2)], none⟩]⟩] from rfl,
      List.foldl_cons, List.foldl_nil,
      show (⟨[⟨[("POSITION", 0)], none⟩, ⟨[("POSITION", 1)], none⟩,
         ⟨[("POSITION", 2)], none⟩]⟩ : GMesh).primitives =
       [⟨[("POSITION", 0)], none⟩, ⟨[("POSITION", 1)], none⟩,
         ⟨[("POSITION", 2)], none⟩] from rfl]
    rw [processPrims_cons, hb1, if_neg Bool.false_ne_true]
    rw [processPrims_cons, hb2, if_neg Bool.false_ne_true]
    rw [processPrims_cons, hb3, if_neg Bool.false_ne_true]
    rw [show ∀ st : GltfAcc, processPrims gltfVec4Prims.accessors
      gltfVec4Prims.bufferViews [[]] st [] = st from fun _ => rfl]
    rw [hp3, hp2, hp1, h0, h1, h2]
    simp only [List.length_append, List.length_replicate]
    decide
  · rw [extract_gltf_data_warnings, show gltfVec4Prims.meshes =
      [⟨[⟨[("POSITION", 0)], none⟩, ⟨[("POSITION", 1)], none⟩,
         ⟨[("POSITION", 2)], none⟩]⟩] from rfl,
      List.foldl_cons, List.foldl_nil,
      show (⟨[⟨[("POSITION", 0)], none⟩, ⟨[("POSITION", 1)], none⟩,
         ⟨[("POSITION", 2)], none⟩]⟩ : GMesh).primitives =
       [⟨[("POSITION", 0)], none⟩, ⟨[("POSITION", 1)], none⟩,
         ⟨[("POSITION", 2)], none⟩] from rfl]
    rw [processPrims_cons, hb1, if_neg Bool.false_ne_true]
    rw [processPrims_cons, hb2, if_neg Bool.false_ne_true]
    rw [processPrims_cons, hb3, if_neg Bool.false_ne_true]
    rw [show ∀ st : GltfAcc, processPrims gltfVec4Prims.accessors
      gltfVec4Prims.bufferViews [[]] st [] = st from fun _ => rfl]
    rw [hw3, hw2, hw1]
    rfl

/-- C1 (counterexample): the 100000-vertex ceiling is exceeded, with no
warning recorded, by both the FBX decoder (1 source vertex re-expanded by
33334 polygon loops to `vertex_count = 100002`) and the glTF/GLB extractor
(three `VEC4` `POSITION` primitives giving `vertex_count = 100001`); the
GLB path feeds the same `_extract_gltf_data` after container unwrapping. -/
theorem vertex_cap_exceeded_fbx_and_gltf :
    ((parse_fbx_geometry (fbxPolyTree 33334)).map
        (fun g => (g.vertex_count, g.warnings)) =
      Except.ok (100002, []) ∧ MAX_VERTICES < 100002) ∧
    ((extract_gltf_data gltfVec4Prims [[]]).vertex_count = 100001 ∧
     (extract_gltf_data gltfVec4Prims [[]]).warnings = [] ∧
     MAX_VERTICES < 100001) :=
  ⟨fbx_expanded_vertices_exceed_cap, gltf_expanded_vertices_exceed_cap⟩
